import Mathlib

/-! # The chunk store of package `appender` (src/appender/store.go)

A shallow embedding of the per-metric chunk store: two chunk buffers
(`attrAppender`), the pending list, and the operations `Append`,
`WriteChunks`, `ProcessGetResp`, `ProcessWriteResp`, `GetChunksState`,
`SetState`, `UpdatesBehind` and `chunkbuf2Expr`.

Conventions of the embedding.

* Go `int` and `int64` values are `Int`; `uint64` values and bytes are `Nat`.
  The one subtraction of the file, `cur.lastT - MAX_LATE_WRITE` on line 243,
  wraps around as `int64` does (`wrapInt64`); on the stores the operations
  build, where `lastT` starts at 0 and only grows, it is exact.  The sums
  (sample counts, byte offsets) are exact.  Division is Go's, truncating
  (`Int.tdiv`).  The only narrowing conversion, `uint16(chunk.updMarker)`, is
  written out as a reduction modulo `2^16`.
* A pointer or interface field that may be `nil` is an `Option`.  A method
  call through a `nil` partition or a `nil` appender, and a failed type
  assertion, are run-time panics: they show up as `Outcome.fault` (or `none`
  in the helpers).
* The packages `partmgr` and `chunkenc` and the v3io container are not part of
  the file; what `store.go` calls from them is the record `Collaborators`,
  over arbitrary types `Part` of partitions and `Enc` of chunk appenders.
  The resolver always returns a partition (`TimeToPart`, `NextPart`).
* `curChunk` only ever holds `0` or `1` (it starts at `0` and is changed by
  `^ 1` alone); it is a `Fin 2`, and the array `chunks` is the pair of fields
  `chunks0`, `chunks1`.
* Logging and the mutex around the request map have no counterpart.

The theorems are stated for arbitrary collaborators.  The reference
collaborators of the second part (`refOps`: one chunk per hour, an appender
that keeps its samples uncompressed) provide the concrete stores on which
theorems are instantiated and on which the code is run.
-/

namespace appender

/-- What a call of a Go method leaves behind: it returned a `nil` error, it
returned an error (the state is the one the call left behind), or it
panicked. -/
inductive Outcome (σ : Type) where
  | ok (s : σ)
  | err (msg : String) (s : σ)
  | fault
  deriving DecidableEq, Repr

/-- The dynamic value handed to `Append` as `v interface{}`: a `float64`
(kept as its IEEE-754 bit pattern) or a value of some other dynamic type. -/
inductive Value where
  | float64 (bits : Nat)
  | other (dyn : String)
  deriving DecidableEq, Repr

/-- Argument of `container.GetItem`. -/
structure GetItemInput where
  Path : String
  AttributeNames : List String
  deriving DecidableEq, Repr

/-- Argument of `container.UpdateItem`. -/
structure UpdateItemInput where
  Path : String
  Expression : String
  deriving DecidableEq, Repr

/-- The calls `store.go` makes into `partmgr` (partitions), `chunkenc`
(chunk appenders) and the v3io container. -/
structure Collaborators (Part Enc : Type) where
  /-- `mc.partitionMngr.TimeToPart(t)` -/
  TimeToPart : Int → Part
  /-- `partition.GetChunkMint(t)` -/
  GetChunkMint : Part → Int → Int
  /-- `partition.InChunkRange(mint, t)` -/
  InChunkRange : Part → Int → Int → Bool
  /-- `partition.IsAheadOfChunk(mint, t)` -/
  IsAheadOfChunk : Part → Int → Int → Bool
  /-- `partition.NextPart(t)` -/
  NextPart : Part → Int → Part
  /-- `partition.GetId()` -/
  GetId : Part → Int
  /-- `partition.GetPath()` -/
  GetPath : Part → String
  /-- `partition.TimeToChunkId(mint)` -/
  TimeToChunkId : Part → Int → Int
  /-- `partition.ChunkID2Attr(col, id)` -/
  ChunkID2Attr : Part → String → Int → String
  /-- `chunkenc.NewXORChunk().Appender()`: a fresh appender, or the error. -/
  NewAppender : Except String Enc
  /-- `appender.Append(t, v)` with `v` the bit pattern of the float. -/
  Append : Enc → Int → Nat → Enc
  /-- `appender.Chunk().NumSamples()` -/
  NumSamples : Enc → Int
  /-- `appender.Chunk().GetChunkBuffer()`: metadata word, offset of the first
  unflushed byte, unflushed bytes. -/
  GetChunkBuffer : Enc → Nat × Int × List Nat
  /-- `appender.Chunk().MoveOffset(m)` with `m` a `uint16`. -/
  MoveOffset : Enc → Nat → Enc
  /-- `chunkenc.ToUint64(bytes)` -/
  ToUint64 : List Nat → List Nat
  /-- `mc.container.GetItem(input, ch)`: the request id, or the error. -/
  GetItem : GetItemInput → Except String Nat
  /-- `mc.container.UpdateItem(input, ch)`: the request id, or the error. -/
  UpdateItem : UpdateItemInput → Except String Nat

def MaxArraySize : Int := 1024

/-- The constant of line 32; its comment reads "max late arrival of 59min". -/
def MAX_LATE_WRITE : Int := 59 * 3600 * 1000

abbrev storeState := Nat

def storeStateInit : storeState := 0
def storeStateGet : storeState := 1
def storeStateReady : storeState := 2
def storeStateUpdate : storeState := 3
def storeStateSort : storeState := 3

/-- The chunk appender: one buffer of the store. -/
structure attrAppender (Part Enc : Type) where
  appender : Option Enc
  partition : Option Part
  updMarker : Int
  updCount : Int
  lastT : Int
  chunkMint : Int
  writing : Bool
  deriving DecidableEq, Repr

structure pendingData where
  t : Int
  v : Value
  deriving DecidableEq, Repr

/-- Latest and previous chunks and their state. -/
structure chunkStore (Part Enc : Type) where
  state : storeState
  curChunk : Fin 2
  lastTid : Int
  pending : List pendingData
  chunks0 : attrAppender Part Enc
  chunks1 : attrAppender Part Enc
  deriving DecidableEq, Repr

variable {Part Enc : Type}

/-- The zero value `&attrAppender{}`. -/
def attrAppender.zero : attrAppender Part Enc :=
  { appender := none, partition := none, updMarker := 0, updCount := 0,
    lastT := 0, chunkMint := 0, writing := false }

def NewChunkStore : chunkStore Part Enc :=
  { state := storeStateInit, curChunk := 0, lastTid := 0, pending := [],
    chunks0 := attrAppender.zero, chunks1 := attrAppender.zero }

/-- Read `cs.chunks[i]`. -/
def chunkStore.chunks (cs : chunkStore Part Enc) (i : Fin 2) : attrAppender Part Enc :=
  if i = 0 then cs.chunks0 else cs.chunks1

/-- Write through the pointer `cs.chunks[i]`. -/
def chunkStore.setChunk (cs : chunkStore Part Enc) (i : Fin 2)
    (a : attrAppender Part Enc) : chunkStore Part Enc :=
  if i = 0 then { cs with chunks0 := a } else { cs with chunks1 := a }

def attrAppender.initialize (ops : Collaborators Part Enc) (a : attrAppender Part Enc)
    (partition : Part) (t : Int) : attrAppender Part Enc :=
  { a with
    updCount := 0
    updMarker := 0
    lastT := 0
    writing := false
    partition := some partition
    chunkMint := ops.GetChunkMint partition t }

/-- `none` is the panic of calling through a `nil` partition. -/
def attrAppender.inRange (ops : Collaborators Part Enc) (a : attrAppender Part Enc)
    (t : Int) : Option Bool :=
  match a.partition with
  | none => none
  | some p => some (ops.InChunkRange p a.chunkMint t)

/-- `none` is the panic of calling through a `nil` partition. -/
def attrAppender.isAhead (ops : Collaborators Part Enc) (a : attrAppender Part Enc)
    (t : Int) : Option Bool :=
  match a.partition with
  | none => none
  | some p => some (ops.IsAheadOfChunk p a.chunkMint t)

/-- `none` is the panic of a `nil` appender or of the assertion
`v.(float64)` on a value of another type. -/
def attrAppender.appendAttr (ops : Collaborators Part Enc) (a : attrAppender Part Enc)
    (t : Int) (v : Value) : Option (attrAppender Part Enc) :=
  match a.appender, v with
  | some e, Value.float64 x =>
      some { a with
        appender := some (ops.Append e t x)
        lastT := if t > a.lastT then t else a.lastT }
  | _, _ => none

def chunkStore.IsReady (cs : chunkStore Part Enc) : Bool :=
  cs.state == storeStateReady

def chunkStore.GetState (cs : chunkStore Part Enc) : storeState :=
  cs.state

def chunkStore.SetState (cs : chunkStore Part Enc) (state : storeState) :
    chunkStore Part Enc :=
  { cs with state := state }

/-- The contribution of one chunk to `UpdatesBehind`. -/
def attrAppender.behind (ops : Collaborators Part Enc) (chunk : attrAppender Part Enc) : Int :=
  match chunk.appender with
  | none => 0
  | some e => ops.NumSamples e - chunk.updCount

/-- How many un-committed writes. -/
def chunkStore.UpdatesBehind (ops : Collaborators Part Enc) (cs : chunkStore Part Enc) : Int :=
  (cs.pending.length : Int) + cs.chunks0.behind ops + cs.chunks1.behind ops

/-- The text of `fmt.Errorf` on line 223: the format has no verb, so the
argument `t` is reported as an extra operand. -/
def errInFlight (t : Int) : String :=
  "Error, append beyound cur chunk while IO in flight to prev%!(EXTRA int64=" ++
    toString t ++ ")"

/-- The `int64` that Go computes where the exact result is `x`: the value
modulo `2^64` in the range from `-2^63` to `2^63 - 1`. -/
def wrapInt64 (x : Int) : Int :=
  (x + 2 ^ 63) % 2 ^ 64 - 2 ^ 63

/-- Append data to the right chunk and table based on the time and state. -/
def chunkStore.Append (ops : Collaborators Part Enc) (cs : chunkStore Part Enc)
    (t : Int) (v : Value) : Outcome (chunkStore Part Enc) :=
  if cs.state = storeStateGet ∨ cs.state = storeStateInit then
    Outcome.ok { cs with pending := cs.pending ++ [{ t := t, v := v }] }
  else
    let cur := cs.chunks cs.curChunk
    match cur.inRange ops t with
    | none => Outcome.fault
    | some true =>
        match cur.appendAttr ops t v with
        | none => Outcome.fault
        | some cur1 => Outcome.ok (cs.setChunk cs.curChunk cur1)
    | some false =>
        match cur.isAhead ops t, cur.partition with
        | some true, some part =>
            let other := cs.chunks (cs.curChunk ^^^ 1)
            if other.writing then
              Outcome.err (errInFlight t) cs
            else
              match ops.NewAppender with
              | Except.error e => Outcome.err e cs
              | Except.ok app =>
                  let other1 := attrAppender.initialize ops other (ops.NextPart part t) t
                  let other2 := { other1 with appender := some app }
                  match other2.appendAttr ops t v with
                  | none => Outcome.fault
                  | some other3 =>
                      Outcome.ok
                        { cs.setChunk (cs.curChunk ^^^ 1) other3 with
                          curChunk := cs.curChunk ^^^ 1 }
        | some false, _ =>
            let prev := cs.chunks (cs.curChunk ^^^ 1)
            match prev.inRange ops t with
            | none => Outcome.fault
            | some inPrev =>
                if inPrev && decide (t > wrapInt64 (cur.lastT - MAX_LATE_WRITE)) then
                  match prev.appendAttr ops t v with
                  | none => Outcome.fault
                  | some prev1 => Outcome.ok (cs.setChunk (cs.curChunk ^^^ 1) prev1)
                else
                  Outcome.ok cs
        | _, _ => Outcome.fault

/-- The conversion `int64(w)` of a `uint64` word. -/
def int64OfUint64 (w : Nat) : Int :=
  if w % 2 ^ 64 < 2 ^ 63 then ((w % 2 ^ 64 : Nat) : Int) else ((w % 2 ^ 64 : Nat) : Int) - 2 ^ 64

/-- The loop of lines 363-366: one clause per word, `offset` counting up. -/
def chunkbuf2ExprLoop (attr : String) : List Nat → Int → String → String
  | [], _, expr => expr
  | w :: ui, offset, expr =>
      chunkbuf2ExprLoop attr ui (offset + 1)
        (expr ++ (attr ++ "[" ++ toString offset ++ "]=" ++ toString (int64OfUint64 w) ++ "; "))

/-- The update expression of one buffer; `none` is the panic of calling
through a `nil` partition. -/
def chunkbuf2Expr (ops : Collaborators Part Enc) (offsetByte : Int) (meta : Nat)
    (bytes : List Nat) (app : attrAppender Part Enc) : Option String :=
  match app.partition with
  | none => none
  | some p =>
      let expr := ""
      let offset := Int.tdiv offsetByte 8
      let ui := ops.ToUint64 bytes
      let idx := ops.TimeToChunkId p app.chunkMint
      let attr := ops.ChunkID2Attr p "v" idx
      let expr :=
        if offsetByte = 0 then
          expr ++ (attr ++ "=init_array(" ++ toString MaxArraySize ++ ",'int'); ")
        else expr
      let expr := expr ++ ("_meta[" ++ toString idx ++ "]=" ++ toString meta ++ "; ")
      let expr := chunkbuf2ExprLoop attr ui offset expr
      some (expr ++ ("_maxtime=" ++ toString app.lastT))

structure Label where
  Name : String
  Value : String
  deriving DecidableEq, Repr

structure MetricState where
  name : String
  key : String
  hash : Nat
  Lset : List Label
  deriving DecidableEq, Repr

/-- The two configuration fields `store.go` reads. -/
structure Config where
  OverrideOld : Bool
  Path : String
  deriving DecidableEq, Repr

/-- A request accepted by the v3io container. -/
inductive Request where
  | getItem (input : GetItemInput)
  | updateItem (input : UpdateItemInput)
  deriving DecidableEq, Repr

/-- The part of `MetricsCache` that `store.go` touches: the configuration and
the map from request id to metric (newest binding first).  `issued` is the
container's side of the calls: the requests it accepted, oldest first. -/
structure MetricsCache where
  cfg : Config
  requestsMap : List (Nat × MetricState)
  issued : List Request
  deriving DecidableEq, Repr

def GetMetricPath (metric : MetricState) (basePath : String) (_table : String) : String :=
  basePath ++ "/" ++ metric.name ++ "." ++ toString metric.hash

/-- Read (async) the current chunk state and data from the storage. -/
def chunkStore.GetChunksState (ops : Collaborators Part Enc) (cs : chunkStore Part Enc)
    (mc : MetricsCache) (metric : MetricState) (t : Int) :
    Outcome (chunkStore Part Enc × MetricsCache) :=
  let part := ops.TimeToPart t
  let c0 := attrAppender.initialize ops cs.chunks0 part t
  let app : Option Enc :=
    match ops.NewAppender with
    | Except.ok a => some a
    | Except.error _ => none
  let cs1 := { cs with chunks0 := { c0 with appender := app } }
  if mc.cfg.OverrideOld then
    Outcome.ok ({ cs1 with state := storeStateReady }, mc)
  else
    let path := GetMetricPath metric mc.cfg.Path (ops.GetPath part)
    let getInput : GetItemInput := { Path := path, AttributeNames := ["_maxtime", "_meta"] }
    match ops.GetItem getInput with
    | Except.error e => Outcome.err e (cs1, mc)
    | Except.ok id =>
        Outcome.ok
          ({ cs1 with state := storeStateGet },
           { mc with
             requestsMap := (id, metric) :: mc.requestsMap
             issued := mc.issued ++ [Request.getItem getInput] })

/-- The dynamic value of an item attribute. -/
inductive AttrValue where
  | int (n : Int)
  | other (dyn : String)
  deriving DecidableEq, Repr

/-- The dynamic value of `resp.Output`. -/
inductive Output where
  | getItemOutput (item : List (String × AttrValue))
  | other (dyn : String)
  deriving DecidableEq, Repr

/-- The fields of `v3io.Response` that `ProcessGetResp` reads. -/
structure Response where
  Error : Option String
  Output : Output
  deriving DecidableEq, Repr

/-- Process the GetItem response from the storage.  The cache and the metric
are read for logging alone and are left out. -/
def chunkStore.ProcessGetResp (ops : Collaborators Part Enc) (cs : chunkStore Part Enc)
    (resp : Response) : Outcome (chunkStore Part Enc) :=
  let cs1 := { cs with state := storeStateReady }
  match resp.Error with
  | some _ => Outcome.ok cs1
  | none =>
      match resp.Output with
      | Output.other _ => Outcome.fault
      | Output.getItemOutput item =>
          match item.lookup "_maxtime" with
          | some (AttrValue.other _) => Outcome.fault
          | _ =>
              match cs1.chunks0.partition with
              | none => Outcome.fault
              | some p => Outcome.ok { cs1 with lastTid := ops.GetId p }

/-- The state of the loop of `WriteChunks` between two rounds. -/
structure writeLoop (Part Enc : Type) where
  cs : chunkStore Part Enc
  tableId : Int
  expr : String
  notInitialized : Bool
  deriving DecidableEq, Repr

/-- One round of the loop of lines 269-298, for `i = 0` or `i = 1`; `none`
is a panic. -/
def writeChunksRound (ops : Collaborators Part Enc) (i : Fin 2) (st : writeLoop Part Enc) :
    Option (writeLoop Part Enc) :=
  let k := st.cs.curChunk ^^^ (i &&& 1)
  let chunk := st.cs.chunks k
  match chunk.partition, chunk.appender with
  | some part, some app =>
      let tid := ops.GetId part
      if st.tableId = -1 ∨ st.tableId = tid then
        let samples := ops.NumSamples app
        if samples > chunk.updCount then
          let buf := ops.GetChunkBuffer app
          let offsetByte := buf.2.1
          let b := buf.2.2
          let chunk1 :=
            { chunk with
              updMarker := Int.tdiv (offsetByte + (b.length : Int) - 1) 8 * 8
              updCount := samples
              writing := true }
          let fresh := decide (tid > st.cs.lastTid)
          match chunkbuf2Expr ops offsetByte buf.1 b chunk1 with
          | none => none
          | some e =>
              some
                { cs :=
                    { st.cs.setChunk k chunk1 with
                      state := storeStateUpdate
                      lastTid := if fresh then tid else st.cs.lastTid }
                  tableId := tid
                  expr := st.expr ++ e
                  notInitialized := st.notInitialized || fresh }
        else some st
      else some st
  | _, _ => some st

/-- The label clauses of lines 305-312. -/
def labelExpr : List Label → String → String
  | [], lblexpr => lblexpr
  | lbl :: rest, lblexpr =>
      if lbl.Name ≠ "__name__" then
        labelExpr rest (lblexpr ++ (lbl.Name ++ "='" ++ lbl.Value ++ "'; "))
      else
        labelExpr rest (lblexpr ++ ("_name='" ++ lbl.Value ++ "'; "))

/-- Write pending data of the current or previous chunk to the storage. -/
def chunkStore.WriteChunks (ops : Collaborators Part Enc) (cs : chunkStore Part Enc)
    (mc : MetricsCache) (metric : MetricState) :
    Outcome (chunkStore Part Enc × MetricsCache) :=
  if cs.state = storeStateGet then
    Outcome.ok (cs, mc)
  else
    let st0 : writeLoop Part Enc :=
      { cs := cs, tableId := -1, expr := "", notInitialized := false }
    match (writeChunksRound ops 0 st0).bind (writeChunksRound ops 1) with
    | none => Outcome.fault
    | some st =>
        if st.tableId = -1 then
          Outcome.ok (st.cs, mc)
        else
          let expr :=
            if st.notInitialized then
              labelExpr metric.Lset "" ++
                ("_lset='" ++ metric.key ++ "'; _meta=init_array(" ++ toString (24 : Int) ++
                  ",'int'); ") ++ st.expr
            else st.expr
          let path := GetMetricPath metric mc.cfg.Path ""
          let input : UpdateItemInput := { Path := path, Expression := expr }
          match ops.UpdateItem input with
          | Except.error e => Outcome.err e (st.cs, mc)
          | Except.ok id =>
              Outcome.ok
                (st.cs,
                 { mc with
                   requestsMap := (id, metric) :: mc.requestsMap
                   issued := mc.issued ++ [Request.updateItem input] })

/-- The body of the loop of lines 335-340 for one chunk; `none` is the panic
of a `nil` appender. -/
def flushDone (ops : Collaborators Part Enc) (chunk : attrAppender Part Enc) :
    Option (attrAppender Part Enc) :=
  if chunk.writing then
    match chunk.appender with
    | none => none
    | some e =>
        some { chunk with
          appender := some (ops.MoveOffset e (chunk.updMarker % 65536).toNat)
          writing := false }
  else some chunk

/-- Lines 335-342: the loop over both chunks, then `cs.state = storeStateReady`. -/
def completeFlush (ops : Collaborators Part Enc) (cs : chunkStore Part Enc) :
    Option (chunkStore Part Enc) :=
  match flushDone ops cs.chunks0, flushDone ops cs.chunks1 with
  | some c0, some c1 =>
      some { cs with chunks0 := c0, chunks1 := c1, state := storeStateReady }
  | _, _ => none

/-- The loop of lines 344-346 over the pending samples; the error `Append`
returns is discarded. -/
def replayPending (ops : Collaborators Part Enc) :
    chunkStore Part Enc → List pendingData → Outcome (chunkStore Part Enc)
  | cs, [] => Outcome.ok cs
  | cs, data :: rest =>
      match cs.Append ops data.t data.v with
      | Outcome.ok cs1 => replayPending ops cs1 rest
      | Outcome.err _ cs1 => replayPending ops cs1 rest
      | Outcome.fault => Outcome.fault

/-- Process the response for the chunk update request. -/
def chunkStore.ProcessWriteResp (ops : Collaborators Part Enc) (cs : chunkStore Part Enc) :
    Outcome (chunkStore Part Enc) :=
  match completeFlush ops cs with
  | none => Outcome.fault
  | some cs1 => replayPending ops cs1 cs1.pending

/-! ## Runs of the public operations -/

/-- A call of one of the public operations of the store. -/
inductive Op where
  | getChunksState (t : Int)
  | processGetResp (resp : Response)
  | append (t : Int) (v : Value)
  | writeChunks
  | processWriteResp
  | setState (state : storeState)
  deriving DecidableEq, Repr

/-- The store and the cache after one call, whether it returned an error or
not; `none` when the call panicked. -/
def step (ops : Collaborators Part Enc) (metric : MetricState)
    (s : chunkStore Part Enc × MetricsCache) : Op → Option (chunkStore Part Enc × MetricsCache)
  | Op.getChunksState t =>
      match s.1.GetChunksState ops s.2 metric t with
      | Outcome.ok r => some r
      | Outcome.err _ r => some r
      | Outcome.fault => none
  | Op.processGetResp resp =>
      match s.1.ProcessGetResp ops resp with
      | Outcome.ok cs => some (cs, s.2)
      | Outcome.err _ cs => some (cs, s.2)
      | Outcome.fault => none
  | Op.append t v =>
      match s.1.Append ops t v with
      | Outcome.ok cs => some (cs, s.2)
      | Outcome.err _ cs => some (cs, s.2)
      | Outcome.fault => none
  | Op.writeChunks =>
      match s.1.WriteChunks ops s.2 metric with
      | Outcome.ok r => some r
      | Outcome.err _ r => some r
      | Outcome.fault => none
  | Op.processWriteResp =>
      match s.1.ProcessWriteResp ops with
      | Outcome.ok cs => some (cs, s.2)
      | Outcome.err _ cs => some (cs, s.2)
      | Outcome.fault => none
  | Op.setState state => some (s.1.SetState state, s.2)

/-- The calls of a list, one after the other. -/
def run (ops : Collaborators Part Enc) (metric : MetricState) :
    chunkStore Part Enc × MetricsCache → List Op → Option (chunkStore Part Enc × MetricsCache)
  | s, [] => some s
  | s, op :: rest =>
      match step ops metric s op with
      | none => none
      | some s1 => run ops metric s1 rest

/-! ## The replay of the specification (P6) -/

/-- An error returned by `Append` during the replay is dropped: the caller
goes on with the store the call left behind. -/
def discardErr : Outcome (chunkStore Part Enc) → Outcome (chunkStore Part Enc)
  | Outcome.err _ cs => Outcome.ok cs
  | r => r

/-- One step of the replay as the specification words it: the next sample of
the list goes through `Append`. -/
def replayStep (ops : Collaborators Part Enc) (acc : Outcome (chunkStore Part Enc))
    (data : pendingData) : Outcome (chunkStore Part Enc) :=
  match acc with
  | Outcome.ok cs => discardErr (cs.Append ops data.t data.v)
  | r => r

/-- The late-arrival window of the specification: 59 minutes, in milliseconds. -/
def LATE_WINDOW_59MIN : Int := 59 * 60 * 1000

/-- Appending a list of samples one by one; `none` as soon as one call does
not return success. -/
def appendEach (ops : Collaborators Part Enc) :
    chunkStore Part Enc → List pendingData → Option (chunkStore Part Enc)
  | cs, [] => some cs
  | cs, data :: rest =>
      match cs.Append ops data.t data.v with
      | Outcome.ok cs1 => appendEach ops cs1 rest
      | _ => none

/-! ## Reference collaborators

A partition resolver with one chunk per hour and an appender that stores its
samples uncompressed, sixteen bytes each.  They give the theorems below
concrete stores to run on. -/

/-- A partition of the reference resolver, known by its id. -/
structure RefPart where
  id : Int
  deriving DecidableEq, Repr

/-- The reference appender: the samples in arrival order and the offset of the
first unflushed byte. -/
structure RefEnc where
  samples : List (Int × Nat)
  offset : Nat
  deriving DecidableEq, Repr

/-- Milliseconds in the chunk of the reference resolver. -/
def refInterval : Int := 3600 * 1000

/-- The eight bytes of a 64-bit word, least significant first. -/
def refWordBytes (w : Nat) : List Nat :=
  (List.range 8).map (fun k => w / 256 ^ k % 256)

/-- The bytes of the reference appender: per sample the time, then the value. -/
def refBytes (e : RefEnc) : List Nat :=
  e.samples.flatMap (fun s => refWordBytes (s.1 % 2 ^ 64).toNat ++ refWordBytes s.2)

/-- Eight bytes at a time, least significant first; a shorter tail is one word. -/
def refToUint64 : List Nat → List Nat
  | b0 :: b1 :: b2 :: b3 :: b4 :: b5 :: b6 :: b7 :: rest =>
      (b0 + 256 * (b1 + 256 * (b2 + 256 * (b3 + 256 * (b4 + 256 * (b5 + 256 * (b6 + 256 * b7)))))))
        :: refToUint64 rest
  | [] => []
  | b :: rest => [rest.foldr (fun x acc => x + 256 * acc) 0 * 256 + b]

def refOps : Collaborators RefPart RefEnc :=
  { TimeToPart := fun t => { id := t / refInterval }
    GetChunkMint := fun _ t => t / refInterval * refInterval
    InChunkRange := fun _ mint t => decide (mint ≤ t ∧ t < mint + refInterval)
    IsAheadOfChunk := fun _ mint t => decide (t ≥ mint + refInterval)
    NextPart := fun _ t => { id := t / refInterval }
    GetId := fun p => p.id
    GetPath := fun p => toString p.id
    TimeToChunkId := fun _ mint => mint / refInterval % 24
    ChunkID2Attr := fun _ col id => "_" ++ col ++ toString id
    NewAppender := Except.ok { samples := [], offset := 0 }
    Append := fun e t x => { e with samples := e.samples ++ [(t, x)] }
    NumSamples := fun e => (e.samples.length : Int)
    GetChunkBuffer := fun e => (e.samples.length, (e.offset : Int), (refBytes e).drop e.offset)
    MoveOffset := fun e m => { e with offset := m }
    ToUint64 := refToUint64
    GetItem := fun _ => Except.ok 1
    UpdateItem := fun _ => Except.ok 2 }

/-- The reference collaborators with a container that refuses every update. -/
def refOpsDown : Collaborators RefPart RefEnc :=
  { refOps with UpdateItem := fun _ => Except.error "UpdateItem: connection refused" }

/-- The reference collaborators with an appender that forgets its samples
when its offset is moved. -/
def refOpsForget : Collaborators RefPart RefEnc :=
  { refOps with MoveOffset := fun _ m => { samples := [], offset := m } }

/-- A buffer of the reference store: `samples` in the appender, bound to the
partition and chunk of hour `h`. -/
def refBuf (h : Int) (samples : List (Int × Nat)) (lastT : Int) : attrAppender RefPart RefEnc :=
  { appender := some { samples := samples, offset := 0 }
    partition := some { id := h }
    updMarker := 0
    updCount := 0
    lastT := lastT
    chunkMint := h * refInterval
    writing := false }

/-- A ready store whose current buffer (slot 1) is the chunk of hour 2 and
whose previous buffer (slot 0) is the chunk of hour 1; nothing has been
flushed yet. -/
def refStore : chunkStore RefPart RefEnc :=
  { state := storeStateReady
    curChunk := 1
    lastTid := 0
    pending := []
    chunks0 := refBuf 1 [(3600005, 11)] 3600005
    chunks1 := refBuf 2 [(7200000, 12), (10200000, 13)] 10200000 }

/-- A store in which rotation is blocked: the previous buffer of `refStore`
has a flush in flight. -/
def refStoreFlushing : chunkStore RefPart RefEnc :=
  { refStore with
    state := storeStateUpdate
    chunks0 := { refStore.chunks0 with updMarker := 16, updCount := 1, writing := true } }

/-- A ready store whose current buffer (hour 1) has seen time 3900000 and
whose previous buffer is the chunk of hour 0. -/
def refStoreLate : chunkStore RefPart RefEnc :=
  { state := storeStateReady
    curChunk := 0
    lastTid := 1
    pending := []
    chunks0 := refBuf 1 [(3900000, 21)] 3900000
    chunks1 := refBuf 0 [(1000000, 20)] 1000000 }

/-- A ready store at the lower end of `int64`, not one the operations build:
the previous buffer is the chunk of one hour that starts at `-2^63`, the
current buffer is the chunk after it and has seen the time `-2^63 + 3601000`. -/
def refStoreFloor : chunkStore RefPart RefEnc :=
  { state := storeStateReady
    curChunk := 0
    lastTid := 0
    pending := []
    chunks0 :=
      { refBuf 1 [(-2 ^ 63 + 3601000, 21)] (-2 ^ 63 + 3601000) with
        chunkMint := -2 ^ 63 + 3600000 }
    chunks1 := { refBuf 0 [(-2 ^ 63 + 50, 20)] (-2 ^ 63 + 50) with chunkMint := -2 ^ 63 } }

/-- The cache of the reference runs. -/
def refMC : MetricsCache :=
  { cfg := { OverrideOld := false, Path := "/tsdb" }, requestsMap := [], issued := [] }

/-- The metric of the reference runs. -/
def refMetric : MetricState :=
  { name := "cpu", key := "cpu.key", hash := 77,
    Lset := [{ Name := "__name__", Value := "cpu" }, { Name := "host", Value := "a" }] }

/-- A ready store that has one sample in its only bound buffer, the chunk of
hour 1, and has flushed nothing yet. -/
def refStoreFirst : chunkStore RefPart RefEnc :=
  { state := storeStateReady
    curChunk := 0
    lastTid := 0
    pending := []
    chunks0 := refBuf 1 [(3600010, 1)] 3600010
    chunks1 := attrAppender.zero }

/-- The response to a fetch of an item that does not exist. -/
def respNotFound : Response :=
  { Error := some "item not found", Output := Output.other "nil" }

/-- The cache once `GetChunksState` has issued its request for `refMetric`. -/
def refMCFetching : MetricsCache :=
  { refMC with
    requestsMap := [(1, refMetric)]
    issued := [Request.getItem { Path := "/tsdb/cpu.77", AttributeNames := ["_maxtime", "_meta"] }] }

/-- A store that queued the sample (7200200, 1) while its state was being
fetched, took the sample (7200300, 2) once ready, and has just issued the
flush of its buffer: the response of that flush is what comes next. -/
def refStorePending : chunkStore RefPart RefEnc :=
  { state := storeStateUpdate
    curChunk := 0
    lastTid := 2
    pending := [{ t := 7200200, v := Value.float64 1 }]
    chunks0 :=
      { refBuf 2 [(7200300, 2)] 7200300 with updMarker := 8, updCount := 1, writing := true }
    chunks1 := attrAppender.zero }

/-- A store whose current buffer has a flush in flight with a marker beyond
the range of `uint16`. -/
def refStoreBig : chunkStore RefPart RefEnc :=
  { refStore with
    state := storeStateUpdate
    chunks1 := { refStore.chunks1 with updMarker := 65544, updCount := 2, writing := true } }

/-- A store whose previous buffer has been flushed up to byte 16 and whose
pending list holds a sample ahead of the current chunk. -/
def refStoreAhead : chunkStore RefPart RefEnc :=
  { refStore with
    pending := [{ t := 36000100, v := Value.float64 5 }]
    chunks0 :=
      { refStore.chunks0 with
        appender := some { samples := [(3600005, 11)], offset := 16 }
        updMarker := 16
        updCount := 1 } }

/-- The store `GetChunksState` leaves at time 0 when the item is being
fetched: buffer 0 bound to the chunk of hour 0, state FetchingState. -/
def refStoreFetching : chunkStore RefPart RefEnc :=
  { state := storeStateGet
    curChunk := 0
    lastTid := 0
    pending := []
    chunks0 := refBuf 0 [] 0
    chunks1 := attrAppender.zero }

/-- What a refused update leaves of `refStoreFirst`. -/
def refStoreFirstFailed : chunkStore RefPart RefEnc :=
  { refStoreFirst with
    state := storeStateUpdate
    lastTid := 1
    chunks0 := { refStoreFirst.chunks0 with updMarker := 8, updCount := 1, writing := true } }

/-- The store `refStorePending` after its flush has completed and its
pending sample has been replayed `n` times into the buffer. -/
def refStoreReplayed (n : Nat) : chunkStore RefPart RefEnc :=
  { refStorePending with
    state := storeStateReady
    chunks0 := { refStorePending.chunks0 with
      appender := some
        { samples := [(7200300, 2)] ++ List.replicate n (7200200, 1)
          offset := 8 }
      writing := false } }

/-- The reference collaborators with one partition per day (24 chunks of an
hour each): consecutive chunks of a day share the partition id. -/
def refOpsDay : Collaborators RefPart RefEnc :=
  { refOps with
    TimeToPart := fun t => { id := t / (24 * refInterval) }
    NextPart := fun _ t => { id := t / (24 * refInterval) } }

/-- The cache of a metric that is configured to override old data. -/
def refMCOverride : MetricsCache :=
  { refMC with cfg := { OverrideOld := true, Path := "/tsdb" } }

/-- The ready store right after `GetChunksState` at time 7200000: buffer 0 is
the empty chunk of hour 2, buffer 1 has never been bound. -/
def refStoreUnrotated : chunkStore RefPart RefEnc :=
  { state := storeStateReady
    curChunk := 0
    lastTid := 0
    pending := []
    chunks0 := refBuf 2 [] 0
    chunks1 := attrAppender.zero }

/-- A ready store whose previous buffer (slot 0, hour 1) holds two samples
that were never flushed and whose current buffer (slot 1) is the chunk of
hour 2. -/
def refStoreUnflushed : chunkStore RefPart RefEnc :=
  { state := storeStateReady
    curChunk := 1
    lastTid := 0
    pending := []
    chunks0 := refBuf 1 [(3600005, 11), (3600006, 12)] 3600006
    chunks1 := refBuf 2 [(7200000, 13)] 7200000 }

/-- A ready store of the one-partition-a-day resolver: both buffers belong to
partition 1 (hours 25 and 26) and each holds one unflushed sample. -/
def refStoreDay : chunkStore RefPart RefEnc :=
  { state := storeStateReady
    curChunk := 1
    lastTid := 0
    pending := []
    chunks0 := { refBuf 25 [(90000000, 11)] 90000000 with partition := some { id := 1 } }
    chunks1 := { refBuf 26 [(93600000, 12)] 93600000 with partition := some { id := 1 } } }

/-! ## The fragment of the specification (section 4.2) -/

/-- The clauses of a list written one after the other. -/
def concatClauses : List String → String
  | [] => ""
  | c :: rest => c ++ concatClauses rest

/-- The fragment of one buffer as the specification describes it: the
allocation clause when the range starts at byte 0, one `_meta` clause, one
clause per 64-bit word at the array offsets `offsetByte / 8 + k`, and the
`_maxtime` assignment. -/
def deltaCodecSpec (attr : String) (idx : Int) (offsetByte : Int) (meta : Nat)
    (words : List Nat) (lastT : Int) : String :=
  concatClauses
    ((if offsetByte = 0 then [attr ++ "=init_array(" ++ toString MaxArraySize ++ ",'int'); "]
      else []) ++
     ["_meta[" ++ toString idx ++ "]=" ++ toString meta ++ "; "] ++
     (words.enum.map fun kw =>
        attr ++ "[" ++ toString (offsetByte / 8 + (kw.1 : Int)) ++ "]=" ++
          toString (int64OfUint64 kw.2) ++ "; ") ++
     ["_maxtime=" ++ toString lastT])

/-! ## Eligibility for a flush -/

/-- The partition id of a buffer that `WriteChunks` can flush: the buffer is
bound to a partition, holds an appender, and the appender has more samples
than `updCount`; `none` for any other buffer. -/
def attrAppender.unflushedId (ops : Collaborators Part Enc) (a : attrAppender Part Enc) :
    Option Int :=
  match a.partition, a.appender with
  | some part, some app => if ops.NumSamples app > a.updCount then some (ops.GetId part) else none
  | _, _ => none

/-- The buffer as the loop of `WriteChunks` leaves it when it flushes it
(lines 283-285). -/
def attrAppender.markFlushed (ops : Collaborators Part Enc) (a : attrAppender Part Enc) :
    attrAppender Part Enc :=
  match a.appender with
  | none => a
  | some app =>
      { a with
        updMarker :=
          Int.tdiv ((ops.GetChunkBuffer app).2.1 + ((ops.GetChunkBuffer app).2.2.length : Int) - 1)
            8 * 8
        updCount := ops.NumSamples app
        writing := true }

/-- The fragment `chunkbuf2Expr` builds for a buffer from the range its
appender reports; the empty string for a buffer without appender or
partition. -/
def attrAppender.fragment (ops : Collaborators Part Enc) (a : attrAppender Part Enc) : String :=
  match a.appender with
  | none => ""
  | some app =>
      (chunkbuf2Expr ops (ops.GetChunkBuffer app).2.1 (ops.GetChunkBuffer app).1
        (ops.GetChunkBuffer app).2.2 a).getD ""

/-- The initialization clauses of the specification: one assignment per
label, the label `__name__` going to the column `_name`, then the label-set
key and the allocation of the `_meta` array. -/
def initClauses (metric : MetricState) : String :=
  concatClauses (metric.Lset.map fun lbl =>
    (if lbl.Name = "__name__" then "_name" else lbl.Name) ++ "='" ++ lbl.Value ++ "'; ") ++
    ("_lset='" ++ metric.key ++ "'; _meta=init_array(24,'int'); ")

/-- The store after the loop of `WriteChunks` has flushed buffer `k` for the
table `tid` (lines 280-291). -/
def chunkStore.flushAt (ops : Collaborators Part Enc) (cs : chunkStore Part Enc) (k : Fin 2)
    (tid : Int) : chunkStore Part Enc :=
  { cs.setChunk k ((cs.chunks k).markFlushed ops) with
    state := storeStateUpdate
    lastTid := if tid > cs.lastTid then tid else cs.lastTid }

/-- Lines 300-329 of `WriteChunks`, what follows the loop: nothing when no
table was chosen, else the request with the expression of the loop, after the
initialization clauses when the loop asked for them. -/
def writeChunksFinish (ops : Collaborators Part Enc) (mc : MetricsCache) (metric : MetricState)
    (st : writeLoop Part Enc) : Outcome (chunkStore Part Enc × MetricsCache) :=
  if st.tableId = -1 then
    Outcome.ok (st.cs, mc)
  else
    match ops.UpdateItem
        { Path := GetMetricPath metric mc.cfg.Path ""
          Expression := (if st.notInitialized then initClauses metric else "") ++ st.expr } with
    | Except.error e => Outcome.err e (st.cs, mc)
    | Except.ok id =>
        Outcome.ok
          (st.cs,
           { mc with
             requestsMap := (id, metric) :: mc.requestsMap
             issued := mc.issued ++
               [Request.updateItem
                 { Path := GetMetricPath metric mc.cfg.Path ""
                   Expression :=
                     (if st.notInitialized then initClauses metric else "") ++ st.expr }] })

/-- A store whose previous buffer (slot 0, partition 1) was flushed once, has
that flush still in flight, and has taken a late sample since; the current
buffer (slot 1, partition 2) holds an unflushed sample. -/
def refStoreInFlight : chunkStore RefPart RefEnc :=
  { state := storeStateUpdate
    curChunk := 1
    lastTid := 1
    pending := []
    chunks0 :=
      { refBuf 1 [(3600005, 11), (3600006, 13)] 3600006 with
        updMarker := 8, updCount := 1, writing := true }
    chunks1 := refBuf 2 [(7200000, 12)] 7200000 }

/-- A ready store on times before zero: the current buffer (slot 1) belongs to
the partition with id -1, the previous one to the partition with id -2, and
each holds an unflushed sample. -/
def refStoreNegative : chunkStore RefPart RefEnc :=
  { state := storeStateReady
    curChunk := 1
    lastTid := 0
    pending := []
    chunks0 := refBuf (-2) [(-7199995, 11)] 0
    chunks1 := refBuf (-1) [(-3599995, 12)] 0 }

/-- The response to a fetch of an item that exists. -/
def respFound : Response :=
  { Error := none, Output := Output.getItemOutput [("_maxtime", AttrValue.int (-7200000))] }

/-- A store restored from an existing item on times before zero, so that
`lastTid` is -2: the current buffer (slot 1) belongs to the partition with id
-1, the previous one to the partition with id -2, and each holds an unflushed
sample. -/
def refStoreRestored : chunkStore RefPart RefEnc :=
  { refStoreNegative with lastTid := -2 }

/-! ## One flush in flight -/

/-- Whether `WriteChunks` is called the way that keeps one flush in flight:
no buffer has `writing` set, and the two buffers are not both flushed by
the same round, which the loop does when both hold unflushed samples and the
table of the current one is that of the previous one or is -1. -/
def chunkStore.flushAllowed (ops : Collaborators Part Enc) (cs : chunkStore Part Enc) : Bool :=
  !cs.chunks0.writing && !cs.chunks1.writing &&
    (match (cs.chunks cs.curChunk).unflushedId ops,
        (cs.chunks (cs.curChunk ^^^ 1)).unflushedId ops with
      | some p, some q => decide (p ≠ -1 ∧ p ≠ q)
      | _, _ => true)

/-- Whether every `WriteChunks` call of a run is made on a store for which
`flushAllowed` holds. -/
def disciplined (ops : Collaborators Part Enc) (metric : MetricState) :
    chunkStore Part Enc × MetricsCache → List Op → Bool
  | _, [] => true
  | s, op :: rest =>
      (match op with
        | Op.writeChunks => s.1.flushAllowed ops
        | _ => true) &&
      (match step ops metric s op with
        | none => true
        | some s1 => disciplined ops metric s1 rest)

end appender

/-! ## Theorems -/

namespace appender

variable {Part Enc : Type}

section lemmas

/-- On a value that fits `int64` the wrap-around changes nothing. -/
theorem wrapInt64_of_fits (x : Int) (h1 : -(2 : Int) ^ 63 ≤ x) (h2 : x < 2 ^ 63) :
    wrapInt64 x = x := by
  unfold wrapInt64
  omega

theorem flip_ne (i : Fin 2) : i ^^^ 1 ≠ i := by
  revert i; decide

theorem flip_zero : (0 : Fin 2) ^^^ 1 = 1 := by decide

theorem flip_one : (1 : Fin 2) ^^^ 1 = 0 := by decide

theorem chunks_setChunk_same (cs : chunkStore Part Enc) (i : Fin 2)
    (a : attrAppender Part Enc) : (cs.setChunk i a).chunks i = a := by
  by_cases h : i = 0 <;> simp [chunkStore.setChunk, chunkStore.chunks, h]

theorem chunks_setChunk_flip (cs : chunkStore Part Enc) (i : Fin 2)
    (a : attrAppender Part Enc) : (cs.setChunk i a).chunks (i ^^^ 1) = cs.chunks (i ^^^ 1) := by
  fin_cases i <;> simp [chunkStore.setChunk, chunkStore.chunks, flip_zero, flip_one]

theorem chunks_setChunk_flip2 (cs : chunkStore Part Enc) (i : Fin 2)
    (a : attrAppender Part Enc) : (cs.setChunk (i ^^^ 1) a).chunks i = cs.chunks i := by
  fin_cases i <;> simp [chunkStore.setChunk, chunkStore.chunks, flip_zero, flip_one]

theorem setChunk_state (cs : chunkStore Part Enc) (i : Fin 2) (a : attrAppender Part Enc) :
    (cs.setChunk i a).state = cs.state := by
  by_cases h : i = 0 <;> simp [chunkStore.setChunk, h]

theorem setChunk_curChunk (cs : chunkStore Part Enc) (i : Fin 2) (a : attrAppender Part Enc) :
    (cs.setChunk i a).curChunk = cs.curChunk := by
  by_cases h : i = 0 <;> simp [chunkStore.setChunk, h]

theorem setChunk_pending (cs : chunkStore Part Enc) (i : Fin 2) (a : attrAppender Part Enc) :
    (cs.setChunk i a).pending = cs.pending := by
  by_cases h : i = 0 <;> simp [chunkStore.setChunk, h]

theorem setChunk_lastTid (cs : chunkStore Part Enc) (i : Fin 2) (a : attrAppender Part Enc) :
    (cs.setChunk i a).lastTid = cs.lastTid := by
  by_cases h : i = 0 <;> simp [chunkStore.setChunk, h]

theorem isAhead_partition (ops : Collaborators Part Enc) (a : attrAppender Part Enc) (t : Int)
    (b : Bool) (h : a.isAhead ops t = some b) :
    ∃ part, a.partition = some part ∧ ops.IsAheadOfChunk part a.chunkMint t = b := by
  unfold attrAppender.isAhead at h
  cases hp : a.partition with
  | none => simp [hp] at h
  | some part => exact ⟨part, rfl, by simpa [hp] using h⟩

theorem eq_flip_of_ne : ∀ i j : Fin 2, j ≠ i → j = i ^^^ 1 := by decide

theorem eq_of_ne_flip : ∀ i j : Fin 2, j ≠ i ^^^ 1 → j = i := by decide

theorem appendAttr_writing (ops : Collaborators Part Enc) (a a1 : attrAppender Part Enc)
    (t : Int) (v : Value) (h : a.appendAttr ops t v = some a1) : a1.writing = a.writing := by
  unfold attrAppender.appendAttr at h
  split at h
  · simp at h; rw [← h]
  · simp at h

/-- The five ways `Append` can end once the store has left Init and
FetchingState. -/
theorem Append_cases (ops : Collaborators Part Enc) (cs : chunkStore Part Enc)
    (t : Int) (v : Value)
    (hst : ¬(cs.state = storeStateGet ∨ cs.state = storeStateInit)) :
    cs.Append ops t v = Outcome.fault ∨
    (∃ m, cs.Append ops t v = Outcome.err m cs) ∨
    cs.Append ops t v = Outcome.ok cs ∨
    (∃ i a1, (cs.chunks i).appendAttr ops t v = some a1 ∧
      cs.Append ops t v = Outcome.ok (cs.setChunk i a1)) ∨
    (∃ part app a1,
      attrAppender.appendAttr ops
        { attrAppender.initialize ops (cs.chunks (cs.curChunk ^^^ 1)) part t with
          appender := some app } t v = some a1 ∧
      cs.Append ops t v =
        Outcome.ok { cs.setChunk (cs.curChunk ^^^ 1) a1 with curChunk := cs.curChunk ^^^ 1 }) := by
  unfold chunkStore.Append
  rw [if_neg hst]
  simp only []
  cases hin : (cs.chunks cs.curChunk).inRange ops t with
  | none => left; rfl
  | some b =>
    cases b with
    | true =>
      cases happ : (cs.chunks cs.curChunk).appendAttr ops t v with
      | none => left; rfl
      | some a1 => right; right; right; left; exact ⟨_, _, happ, rfl⟩
    | false =>
      cases hah : (cs.chunks cs.curChunk).isAhead ops t with
      | none => left; rfl
      | some b =>
        cases b with
        | true =>
          cases hp : (cs.chunks cs.curChunk).partition with
          | none => left; rfl
          | some part =>
            by_cases hw : (cs.chunks (cs.curChunk ^^^ 1)).writing = true
            · right; left; exact ⟨errInFlight t, by simp [hw]⟩
            · cases hal : ops.NewAppender with
              | error e => right; left; exact ⟨e, by simp [hw]⟩
              | ok app =>
                simp only [hw]
                cases happ : attrAppender.appendAttr ops
                    { attrAppender.initialize ops (cs.chunks (cs.curChunk ^^^ 1))
                        (ops.NextPart part t) t with appender := some app } t v with
                | none => left; simp [happ]
                | some a1 =>
                  right; right; right; right
                  exact ⟨_, _, _, happ, by simp [happ]⟩
        | false =>
          cases hpr : (cs.chunks (cs.curChunk ^^^ 1)).inRange ops t with
          | none => left; rfl
          | some inPrev =>
            by_cases hc : (inPrev &&
                decide (t > wrapInt64 ((cs.chunks cs.curChunk).lastT - MAX_LATE_WRITE))) = true
            · cases happ : (cs.chunks (cs.curChunk ^^^ 1)).appendAttr ops t v with
              | none => left; simp [hc, happ]
              | some a1 =>
                right; right; right; left
                exact ⟨_, _, happ, by simp [hc, happ]⟩
            · right; right; left; simp [hc]

theorem Append_ready (ops : Collaborators Part Enc) (cs cs1 : chunkStore Part Enc)
    (t : Int) (v : Value) (hs : cs.state = storeStateReady)
    (hw : ∀ i, (cs.chunks i).writing = false)
    (h : discardErr (cs.Append ops t v) = Outcome.ok cs1) :
    cs1.state = storeStateReady ∧ (∀ i, (cs1.chunks i).writing = false) ∧
      cs1.pending = cs.pending := by
  have hst : ¬(cs.state = storeStateGet ∨ cs.state = storeStateInit) := by
    rw [hs]; decide
  rcases Append_cases ops cs t v hst with h1 | ⟨m, h1⟩ | h1 | ⟨i, a1, ha, h1⟩ | ⟨part, app, a1, ha, h1⟩
  all_goals rw [h1] at h
  all_goals simp only [discardErr] at h
  · exact absurd h (by simp)
  · injection h with h; subst h; exact ⟨hs, hw, rfl⟩
  · injection h with h; subst h; exact ⟨hs, hw, rfl⟩
  · injection h with h; subst h
    refine ⟨by rw [setChunk_state]; exact hs, ?_, setChunk_pending _ _ _⟩
    have hwa : a1.writing = false := by
      rw [appendAttr_writing ops _ _ t v ha]; exact hw i
    intro j
    by_cases hj : j = i
    · subst hj; rw [chunks_setChunk_same]; exact hwa
    · rw [eq_flip_of_ne i j hj, chunks_setChunk_flip]; exact hw _
  · injection h with h; subst h
    refine ⟨by show (cs.setChunk _ _).state = _; rw [setChunk_state]; exact hs, ?_,
      by show (cs.setChunk _ _).pending = _; exact setChunk_pending _ _ _⟩
    have hwa : a1.writing = false := by
      rw [appendAttr_writing ops _ _ t v ha]; rfl
    intro j
    have e0 : ∀ k, chunkStore.chunks
        { cs.setChunk (cs.curChunk ^^^ 1) a1 with curChunk := cs.curChunk ^^^ 1 } k
        = (cs.setChunk (cs.curChunk ^^^ 1) a1).chunks k := fun k => rfl
    rw [e0]
    by_cases hj : j = cs.curChunk ^^^ 1
    · rw [hj, chunks_setChunk_same]; exact hwa
    · rw [eq_of_ne_flip _ j hj, chunks_setChunk_flip2]; exact hw _

theorem foldl_replayStep_fault (ops : Collaborators Part Enc) (l : List pendingData) :
    List.foldl (replayStep ops) Outcome.fault l = Outcome.fault := by
  induction l with
  | nil => rfl
  | cons d rest ih => simpa [List.foldl, replayStep] using ih

theorem replayPending_eq_foldl (ops : Collaborators Part Enc) (l : List pendingData) :
    ∀ cs : chunkStore Part Enc,
      replayPending ops cs l = List.foldl (replayStep ops) (Outcome.ok cs) l := by
  induction l with
  | nil => intro cs; rfl
  | cons d rest ih =>
    intro cs
    simp only [replayPending, List.foldl, replayStep]
    cases h : cs.Append ops d.t d.v with
    | ok cs1 => simpa [discardErr] using ih cs1
    | err m cs1 => simpa [discardErr] using ih cs1
    | fault => simp [discardErr, foldl_replayStep_fault]

theorem replayPending_ready (ops : Collaborators Part Enc) (l : List pendingData) :
    ∀ cs cs1 : chunkStore Part Enc, cs.state = storeStateReady →
      (∀ i, (cs.chunks i).writing = false) →
      replayPending ops cs l = Outcome.ok cs1 →
      cs1.state = storeStateReady ∧ (∀ i, (cs1.chunks i).writing = false) ∧
        cs1.pending = cs.pending := by
  induction l with
  | nil =>
    intro cs cs1 hs hw h
    simp only [replayPending] at h
    injection h with h; subst h; exact ⟨hs, hw, rfl⟩
  | cons d rest ih =>
    intro cs cs1 hs hw h
    simp only [replayPending] at h
    cases hA : cs.Append ops d.t d.v with
    | ok cs2 =>
      rw [hA] at h
      obtain ⟨h1, h2, h3⟩ := Append_ready ops cs cs2 d.t d.v hs hw (by rw [hA]; rfl)
      obtain ⟨k1, k2, k3⟩ := ih cs2 cs1 h1 h2 h
      exact ⟨k1, k2, k3.trans h3⟩
    | err m cs2 =>
      rw [hA] at h
      obtain ⟨h1, h2, h3⟩ := Append_ready ops cs cs2 d.t d.v hs hw (by rw [hA]; rfl)
      obtain ⟨k1, k2, k3⟩ := ih cs2 cs1 h1 h2 h
      exact ⟨k1, k2, k3.trans h3⟩
    | fault => rw [hA] at h; exact absurd h (by simp)

theorem flushDone_writing (ops : Collaborators Part Enc) (c c1 : attrAppender Part Enc)
    (h : flushDone ops c = some c1) :
    c1.writing = false ∧ { c1 with appender := c.appender } = { c with writing := false } := by
  unfold flushDone at h
  by_cases hw : c.writing = true
  · rw [if_pos hw] at h
    cases ha : c.appender with
    | none => simp [ha] at h
    | some e => simp [ha] at h; subst h; simp
  · rw [if_neg hw] at h
    simp at h hw; subst h
    exact ⟨hw, by rw [← hw]⟩

theorem completeFlush_spec (ops : Collaborators Part Enc) (cs cs0 : chunkStore Part Enc)
    (h : completeFlush ops cs = some cs0) :
    flushDone ops cs.chunks0 = some cs0.chunks0 ∧ flushDone ops cs.chunks1 = some cs0.chunks1 ∧
      cs0.state = storeStateReady ∧ cs0.curChunk = cs.curChunk ∧ cs0.lastTid = cs.lastTid ∧
      cs0.pending = cs.pending := by
  unfold completeFlush at h
  cases h0 : flushDone ops cs.chunks0 with
  | none => simp [h0] at h
  | some c0 =>
    cases h1 : flushDone ops cs.chunks1 with
    | none => simp [h0, h1] at h
    | some c1 => simp [h0, h1] at h; subst h; simp

theorem completeFlush_frame (ops : Collaborators Part Enc) (cs cs0 : chunkStore Part Enc)
    (h : completeFlush ops cs = some cs0) :
    cs0.state = storeStateReady ∧ (∀ i, (cs0.chunks i).writing = false) ∧
      (∀ i, { cs0.chunks i with appender := (cs.chunks i).appender }
        = { cs.chunks i with writing := false }) := by
  obtain ⟨h0, h1, hs, -, -, -⟩ := completeFlush_spec ops cs cs0 h
  have f0 := flushDone_writing ops _ _ h0
  have f1 := flushDone_writing ops _ _ h1
  refine ⟨hs, ?_, ?_⟩
  · intro i
    by_cases hi : i = 0
    · subst hi; exact f0.1
    · simp only [chunkStore.chunks, hi, if_false]; exact f1.1
  · intro i
    by_cases hi : i = 0
    · subst hi; exact f0.2
    · simp only [chunkStore.chunks, hi, if_false]; exact f1.2

theorem appendEach_pending (ops : Collaborators Part Enc) (samples : List pendingData) :
    ∀ cs : chunkStore Part Enc, (cs.state = storeStateInit ∨ cs.state = storeStateGet) →
      appendEach ops cs samples = some { cs with pending := cs.pending ++ samples } := by
  induction samples with
  | nil => intro cs _; simp [appendEach]
  | cons d rest ih =>
    intro cs hst
    have hif : cs.state = storeStateGet ∨ cs.state = storeStateInit := hst.symm
    have hA : cs.Append ops d.t d.v
        = Outcome.ok { cs with pending := cs.pending ++ [{ t := d.t, v := d.v }] } := by
      unfold chunkStore.Append
      rw [if_pos hif]
    simp only [appendEach, hA]
    rw [ih { cs with pending := cs.pending ++ [{ t := d.t, v := d.v }] } hst]
    simp

theorem concatClauses_append (l1 l2 : List String) :
    concatClauses (l1 ++ l2) = concatClauses l1 ++ concatClauses l2 := by
  induction l1 with
  | nil => simp [concatClauses]
  | cons c rest ih => simp [concatClauses, ih, String.append_assoc]

theorem chunkbuf2ExprLoop_eq (attr : String) (base : Int) (ui : List Nat) :
    ∀ (n : Nat) (expr : String),
      chunkbuf2ExprLoop attr ui (base + (n : Int)) expr =
        expr ++ concatClauses ((ui.enumFrom n).map fun kw =>
          attr ++ "[" ++ toString (base + (kw.1 : Int)) ++ "]=" ++
            toString (int64OfUint64 kw.2) ++ "; ") := by
  induction ui with
  | nil => intro n expr; simp [chunkbuf2ExprLoop, concatClauses]
  | cons w rest ih =>
    intro n expr
    have h := ih (n + 1)
      (expr ++ (attr ++ "[" ++ toString (base + (n : Int)) ++ "]=" ++
        toString (int64OfUint64 w) ++ "; "))
    have hn : base + ((n + 1 : Nat) : Int) = base + (n : Int) + 1 := by push_cast; ring
    rw [hn] at h
    simp only [chunkbuf2ExprLoop, List.enumFrom_cons, List.map_cons, concatClauses]
    rw [h, String.append_assoc]

theorem fin2_and_one (i : Fin 2) : i &&& 1 = i := by
  revert i; decide

theorem fin2_xor_zero (c : Fin 2) : c ^^^ 0 = c := by
  revert c; decide

theorem chunkbuf2Expr_frame (ops : Collaborators Part Enc) (o : Int) (meta : Nat)
    (b : List Nat) (a a1 : attrAppender Part Enc) (hp : a1.partition = a.partition)
    (hm : a1.chunkMint = a.chunkMint) (hl : a1.lastT = a.lastT) :
    chunkbuf2Expr ops o meta b a1 = chunkbuf2Expr ops o meta b a := by
  simp [chunkbuf2Expr, hp, hm, hl]

theorem unflushedId_some (ops : Collaborators Part Enc) (a : attrAppender Part Enc) (q : Int)
    (h : a.unflushedId ops = some q) :
    ∃ part app, a.partition = some part ∧ a.appender = some app ∧
      ops.NumSamples app > a.updCount ∧ ops.GetId part = q := by
  unfold attrAppender.unflushedId at h
  cases hp : a.partition with
  | none => simp [hp] at h
  | some part =>
    cases ha : a.appender with
    | none => simp [hp, ha] at h
    | some app =>
      simp only [hp, ha] at h
      by_cases hs : ops.NumSamples app > a.updCount
      · rw [if_pos hs] at h
        exact ⟨part, app, rfl, rfl, hs, Option.some.inj h⟩
      · rw [if_neg hs] at h; exact absurd h (by simp)

/-- A round of the loop leaves everything as it is when the buffer it looks at
has nothing to flush or belongs to another table than the round's. -/
theorem writeChunksRound_skip (ops : Collaborators Part Enc) (i : Fin 2)
    (st : writeLoop Part Enc)
    (h : (st.cs.chunks (st.cs.curChunk ^^^ i)).unflushedId ops = none ∨
      ∃ q, (st.cs.chunks (st.cs.curChunk ^^^ i)).unflushedId ops = some q ∧
        st.tableId ≠ -1 ∧ st.tableId ≠ q) :
    writeChunksRound ops i st = some st := by
  unfold writeChunksRound
  simp only [fin2_and_one]
  unfold attrAppender.unflushedId at h
  cases hp : (st.cs.chunks (st.cs.curChunk ^^^ i)).partition with
  | none => rfl
  | some part =>
    cases ha : (st.cs.chunks (st.cs.curChunk ^^^ i)).appender with
    | none => rfl
    | some app =>
      simp only [hp, ha] at h ⊢
      by_cases hs : ops.NumSamples app > (st.cs.chunks (st.cs.curChunk ^^^ i)).updCount
      · simp only [hs, if_true] at h
        rcases h with h | ⟨q, hq, h1, h2⟩
        · exact absurd h (by simp)
        · have hq' : ops.GetId part = q := Option.some.inj hq
          have : ¬(st.tableId = -1 ∨ st.tableId = ops.GetId part) := by
            rw [hq']; exact fun h => h.elim h1 h2
          rw [if_neg this]
      · simp [hs]

/-- A round of the loop that finds a buffer with unflushed samples, while no
table is chosen yet or the buffer belongs to the chosen table, flushes it. -/
theorem writeChunksRound_flush (ops : Collaborators Part Enc) (i : Fin 2)
    (st : writeLoop Part Enc) (q : Int)
    (hq : (st.cs.chunks (st.cs.curChunk ^^^ i)).unflushedId ops = some q)
    (ht : st.tableId = -1 ∨ st.tableId = q) :
    writeChunksRound ops i st =
      some
        { cs :=
            { st.cs.setChunk (st.cs.curChunk ^^^ i)
                ((st.cs.chunks (st.cs.curChunk ^^^ i)).markFlushed ops) with
              state := storeStateUpdate
              lastTid := if q > st.cs.lastTid then q else st.cs.lastTid }
          tableId := q
          expr := st.expr ++ (st.cs.chunks (st.cs.curChunk ^^^ i)).fragment ops
          notInitialized := st.notInitialized || decide (q > st.cs.lastTid) } := by
  obtain ⟨part, app, hp, ha, hs, hid⟩ := unflushedId_some ops _ q hq
  subst hid
  have hfr : ∀ a1 : attrAppender Part Enc,
      a1.partition = some part →
      ∃ e, chunkbuf2Expr ops (ops.GetChunkBuffer app).2.1 (ops.GetChunkBuffer app).1
        (ops.GetChunkBuffer app).2.2 a1 = some e := by
    intro a1 h1
    simp [chunkbuf2Expr, h1]
  obtain ⟨e, he⟩ := hfr (st.cs.chunks (st.cs.curChunk ^^^ i)) hp
  have hany : ∀ a1 : attrAppender Part Enc, a1.partition = some part →
      a1.chunkMint = (st.cs.chunks (st.cs.curChunk ^^^ i)).chunkMint →
      a1.lastT = (st.cs.chunks (st.cs.curChunk ^^^ i)).lastT →
      chunkbuf2Expr ops (ops.GetChunkBuffer app).2.1 (ops.GetChunkBuffer app).1
        (ops.GetChunkBuffer app).2.2 a1 = some e := by
    intro a1 h1 h2 h3
    rw [← he]
    exact chunkbuf2Expr_frame ops _ _ _ _ a1 (h1.trans hp.symm) h2 h3
  unfold writeChunksRound
  simp only [fin2_and_one, hp, ha, ht, hs, if_true]
  rw [hany
    { appender := some app, partition := some part
      updMarker :=
        Int.tdiv ((ops.GetChunkBuffer app).2.1 + ((ops.GetChunkBuffer app).2.2.length : Int) - 1)
          8 * 8
      updCount := ops.NumSamples app
      lastT := (st.cs.chunks (st.cs.curChunk ^^^ i)).lastT
      chunkMint := (st.cs.chunks (st.cs.curChunk ^^^ i)).chunkMint
      writing := true } rfl rfl rfl]
  simp [attrAppender.markFlushed, attrAppender.fragment, ha, hp, he]

theorem flushAt_curChunk (ops : Collaborators Part Enc) (cs : chunkStore Part Enc) (k : Fin 2)
    (tid : Int) : (cs.flushAt ops k tid).curChunk = cs.curChunk :=
  setChunk_curChunk _ _ _

theorem flushAt_pending (ops : Collaborators Part Enc) (cs : chunkStore Part Enc) (k : Fin 2)
    (tid : Int) : (cs.flushAt ops k tid).pending = cs.pending :=
  setChunk_pending _ _ _

theorem flushAt_state (ops : Collaborators Part Enc) (cs : chunkStore Part Enc) (k : Fin 2)
    (tid : Int) : (cs.flushAt ops k tid).state = storeStateUpdate := rfl

theorem flushAt_lastTid (ops : Collaborators Part Enc) (cs : chunkStore Part Enc) (k : Fin 2)
    (tid : Int) : (cs.flushAt ops k tid).lastTid = max cs.lastTid tid := by
  show (if tid > cs.lastTid then tid else cs.lastTid) = _
  rw [max_def]; split_ifs <;> omega

theorem flushAt_chunks_same (ops : Collaborators Part Enc) (cs : chunkStore Part Enc)
    (k : Fin 2) (tid : Int) :
    (cs.flushAt ops k tid).chunks k = (cs.chunks k).markFlushed ops := by
  show chunkStore.chunks (chunkStore.setChunk _ _ _) k = _
  exact chunks_setChunk_same cs k _

theorem flushAt_chunks_flip (ops : Collaborators Part Enc) (cs : chunkStore Part Enc)
    (k : Fin 2) (tid : Int) :
    (cs.flushAt ops k tid).chunks (k ^^^ 1) = cs.chunks (k ^^^ 1) :=
  chunks_setChunk_flip cs k _

theorem flushAt_chunks_flip2 (ops : Collaborators Part Enc) (cs : chunkStore Part Enc)
    (k : Fin 2) (tid : Int) :
    (cs.flushAt ops (k ^^^ 1) tid).chunks k = cs.chunks k :=
  chunks_setChunk_flip2 cs k _

/-- The flushing round, with the store it leaves written as `flushAt`. -/
theorem writeChunksRound_flushAt (ops : Collaborators Part Enc) (i : Fin 2)
    (st : writeLoop Part Enc) (q : Int)
    (hq : (st.cs.chunks (st.cs.curChunk ^^^ i)).unflushedId ops = some q)
    (ht : st.tableId = -1 ∨ st.tableId = q) :
    writeChunksRound ops i st =
      some
        { cs := st.cs.flushAt ops (st.cs.curChunk ^^^ i) q
          tableId := q
          expr := st.expr ++ (st.cs.chunks (st.cs.curChunk ^^^ i)).fragment ops
          notInitialized := st.notInitialized || decide (q > st.cs.lastTid) } :=
  writeChunksRound_flush ops i st q hq ht

/-- The two rounds of `WriteChunks` when neither buffer has anything to flush. -/
theorem writeLoop_none_none (ops : Collaborators Part Enc) (cs : chunkStore Part Enc)
    (hc : (cs.chunks cs.curChunk).unflushedId ops = none)
    (hp : (cs.chunks (cs.curChunk ^^^ 1)).unflushedId ops = none) :
    (writeChunksRound ops 0 { cs := cs, tableId := -1, expr := "", notInitialized := false }).bind
        (writeChunksRound ops 1) =
      some { cs := cs, tableId := -1, expr := "", notInitialized := false } := by
  rw [writeChunksRound_skip ops 0 _ (Or.inl (by simpa [fin2_xor_zero] using hc))]
  exact writeChunksRound_skip ops 1 _ (Or.inl hp)

/-- The two rounds when only the previous buffer has something to flush. -/
theorem writeLoop_none_some (ops : Collaborators Part Enc) (cs : chunkStore Part Enc) (q : Int)
    (hc : (cs.chunks cs.curChunk).unflushedId ops = none)
    (hp : (cs.chunks (cs.curChunk ^^^ 1)).unflushedId ops = some q) :
    (writeChunksRound ops 0 { cs := cs, tableId := -1, expr := "", notInitialized := false }).bind
        (writeChunksRound ops 1) =
      some
        { cs := cs.flushAt ops (cs.curChunk ^^^ 1) q
          tableId := q
          expr := (cs.chunks (cs.curChunk ^^^ 1)).fragment ops
          notInitialized := decide (q > cs.lastTid) } := by
  rw [writeChunksRound_skip ops 0 _ (Or.inl (by simpa [fin2_xor_zero] using hc))]
  have h := writeChunksRound_flushAt ops 1
    { cs := cs, tableId := -1, expr := "", notInitialized := false } q hp (Or.inl rfl)
  simpa [String.empty_append] using h

/-- The round that flushes the current buffer for table `p`. -/
theorem writeChunksRound_cur (ops : Collaborators Part Enc) (cs : chunkStore Part Enc)
    (p : Int) (hc : (cs.chunks cs.curChunk).unflushedId ops = some p) :
    writeChunksRound ops 0 { cs := cs, tableId := -1, expr := "", notInitialized := false } =
      some
        { cs := cs.flushAt ops cs.curChunk p
          tableId := p
          expr := (cs.chunks cs.curChunk).fragment ops
          notInitialized := decide (p > cs.lastTid) } := by
  have h := writeChunksRound_flushAt ops 0
    { cs := cs, tableId := -1, expr := "", notInitialized := false } p
    (by simpa [fin2_xor_zero] using hc) (Or.inl rfl)
  simpa [fin2_xor_zero, String.empty_append] using h

/-- The two rounds when the current buffer is flushed for table `p` and the
previous one has nothing to flush or belongs to another table. -/
theorem writeLoop_some_skip (ops : Collaborators Part Enc) (cs : chunkStore Part Enc) (p : Int)
    (hc : (cs.chunks cs.curChunk).unflushedId ops = some p)
    (hp : (cs.chunks (cs.curChunk ^^^ 1)).unflushedId ops = none ∨
      ∃ q, (cs.chunks (cs.curChunk ^^^ 1)).unflushedId ops = some q ∧ p ≠ -1 ∧ p ≠ q) :
    (writeChunksRound ops 0 { cs := cs, tableId := -1, expr := "", notInitialized := false }).bind
        (writeChunksRound ops 1) =
      some
        { cs := cs.flushAt ops cs.curChunk p
          tableId := p
          expr := (cs.chunks cs.curChunk).fragment ops
          notInitialized := decide (p > cs.lastTid) } := by
  rw [writeChunksRound_cur ops cs p hc]
  refine writeChunksRound_skip ops 1 _ ?_
  show attrAppender.unflushedId ops
      ((cs.flushAt ops cs.curChunk p).chunks ((cs.flushAt ops cs.curChunk p).curChunk ^^^ 1)) = none ∨ _
  rw [flushAt_curChunk, flushAt_chunks_flip]
  exact hp

/-- The two rounds when both buffers are flushed: the current one for table
`p`, then the previous one for table `q`, which is `p` unless `p = -1`. -/
theorem writeLoop_some_some (ops : Collaborators Part Enc) (cs : chunkStore Part Enc) (p q : Int)
    (hc : (cs.chunks cs.curChunk).unflushedId ops = some p)
    (hp : (cs.chunks (cs.curChunk ^^^ 1)).unflushedId ops = some q)
    (hpq : p = -1 ∨ p = q) :
    (writeChunksRound ops 0 { cs := cs, tableId := -1, expr := "", notInitialized := false }).bind
        (writeChunksRound ops 1) =
      some
        { cs := (cs.flushAt ops cs.curChunk p).flushAt ops (cs.curChunk ^^^ 1) q
          tableId := q
          expr := (cs.chunks cs.curChunk).fragment ops ++ (cs.chunks (cs.curChunk ^^^ 1)).fragment ops
          notInitialized :=
            decide (p > cs.lastTid) || decide (q > (cs.flushAt ops cs.curChunk p).lastTid) } := by
  rw [writeChunksRound_cur ops cs p hc]
  have h := writeChunksRound_flushAt ops 1
    { cs := cs.flushAt ops cs.curChunk p
      tableId := p
      expr := (cs.chunks cs.curChunk).fragment ops
      notInitialized := decide (p > cs.lastTid) } q
    (by
      show attrAppender.unflushedId ops
        ((cs.flushAt ops cs.curChunk p).chunks ((cs.flushAt ops cs.curChunk p).curChunk ^^^ 1)) = _
      rw [flushAt_curChunk, flushAt_chunks_flip]; exact hp) hpq
  simp only [flushAt_curChunk, flushAt_chunks_flip] at h
  exact h

theorem labelExpr_eq (l : List Label) :
    ∀ lblexpr : String,
      labelExpr l lblexpr = lblexpr ++ concatClauses (l.map fun lbl =>
        (if lbl.Name = "__name__" then "_name" else lbl.Name) ++ "='" ++ lbl.Value ++ "'; ") := by
  induction l with
  | nil => intro e; simp [labelExpr, concatClauses]
  | cons lbl rest ih =>
    intro e
    by_cases h : lbl.Name = "__name__"
    · simp [labelExpr, h, ih, concatClauses, String.append_assoc]
    · simp [labelExpr, h, ih, concatClauses, String.append_assoc]

/-- The expression `WriteChunks` sends when the loop asked for the
initialization clauses is the clauses of the specification, then the
fragments. -/
theorem initPrefix_eq (metric : MetricState) (expr : String) :
    labelExpr metric.Lset "" ++
        ("_lset='" ++ metric.key ++ "'; _meta=init_array(" ++ toString (24 : Int) ++ ",'int'); ") ++
        expr
      = initClauses metric ++ expr := by
  have h24 : toString (24 : Int) = "24" := by decide
  rw [labelExpr_eq, String.empty_append, h24]
  simp [initClauses, String.append_assoc]

/-- `WriteChunks` outside FetchingState is its loop followed by
`writeChunksFinish`; a panic of the loop is a panic of the call. -/
theorem WriteChunks_eq_finish (ops : Collaborators Part Enc) (cs : chunkStore Part Enc)
    (mc : MetricsCache) (metric : MetricState) (st : writeLoop Part Enc)
    (hs : cs.state ≠ storeStateGet)
    (hl : (writeChunksRound ops 0
        { cs := cs, tableId := -1, expr := "", notInitialized := false }).bind
        (writeChunksRound ops 1) = some st) :
    cs.WriteChunks ops mc metric = writeChunksFinish ops mc metric st := by
  unfold chunkStore.WriteChunks writeChunksFinish
  rw [if_neg hs]
  simp only [hl]
  by_cases ht : st.tableId = -1
  · simp [ht]
  · by_cases hn : st.notInitialized = true
    · simp only [ht, hn, if_true, if_false, initPrefix_eq]
    · simp only [Bool.not_eq_true] at hn
      simp [ht, hn]

theorem unflushedId_markFlushed (ops : Collaborators Part Enc) (a : attrAppender Part Enc) :
    (a.markFlushed ops).unflushedId ops = none := by
  unfold attrAppender.markFlushed attrAppender.unflushedId
  cases ha : a.appender with
  | none => cases hp : a.partition <;> simp [ha, hp]
  | some app => cases hp : a.partition <;> simp [ha, hp]

theorem writeChunksFinish_cases (ops : Collaborators Part Enc) (mc : MetricsCache)
    (metric : MetricState) (st : writeLoop Part Enc) :
    ∃ mc1, writeChunksFinish ops mc metric st = Outcome.ok (st.cs, mc1) ∨
      ∃ e, writeChunksFinish ops mc metric st = Outcome.err e (st.cs, mc1) := by
  unfold writeChunksFinish
  by_cases ht : st.tableId = -1
  · exact ⟨mc, Or.inl (by simp [ht])⟩
  · rw [if_neg ht]
    cases hu : ops.UpdateItem
        { Path := GetMetricPath metric mc.cfg.Path ""
          Expression := (if st.notInitialized then initClauses metric else "") ++ st.expr } with
    | error e => exact ⟨mc, Or.inr ⟨e, rfl⟩⟩
    | ok id => exact ⟨_, Or.inl rfl⟩

/-- The loop of `WriteChunks` never panics; the store it leaves is the old
one with some of its buffers flushed. -/
theorem writeLoop_total (ops : Collaborators Part Enc) (cs : chunkStore Part Enc) :
    ∃ st, (writeChunksRound ops 0
        { cs := cs, tableId := -1, expr := "", notInitialized := false }).bind
        (writeChunksRound ops 1) = some st ∧
      st.cs.curChunk = cs.curChunk ∧ st.cs.pending = cs.pending ∧
      (∀ k, st.cs.chunks k = cs.chunks k ∨
        ((cs.chunks k).unflushedId ops ≠ none ∧ st.cs.chunks k = (cs.chunks k).markFlushed ops)) ∧
      ((∀ p q, (cs.chunks cs.curChunk).unflushedId ops = some p →
          (cs.chunks (cs.curChunk ^^^ 1)).unflushedId ops = some q → p = -1 ∨ p = q) →
        ∀ k, (st.cs.chunks k).unflushedId ops = none) := by
  have hk : ∀ k : Fin 2, k = cs.curChunk ∨ k = cs.curChunk ^^^ 1 := by
    intro k; generalize cs.curChunk = c; revert k c; decide
  cases hc : (cs.chunks cs.curChunk).unflushedId ops with
  | none =>
    cases hp : (cs.chunks (cs.curChunk ^^^ 1)).unflushedId ops with
    | none =>
      refine ⟨_, writeLoop_none_none ops cs hc hp, rfl, rfl, fun k => Or.inl rfl, ?_⟩
      intro _ k
      rcases hk k with h | h <;> subst h
      · exact hc
      · exact hp
    | some q =>
      refine ⟨_, writeLoop_none_some ops cs q hc hp, flushAt_curChunk _ _ _ _,
        flushAt_pending _ _ _ _, ?_, ?_⟩
      · intro k
        rcases hk k with h | h <;> subst h
        · exact Or.inl (flushAt_chunks_flip2 _ _ _ _)
        · exact Or.inr ⟨by rw [hp]; simp, flushAt_chunks_same _ _ _ _⟩
      · intro _ k
        rcases hk k with h | h <;> subst h
        · show attrAppender.unflushedId ops ((cs.flushAt ops (cs.curChunk ^^^ 1) q).chunks _) = none
          rw [flushAt_chunks_flip2]; exact hc
        · show attrAppender.unflushedId ops ((cs.flushAt ops (cs.curChunk ^^^ 1) q).chunks _) = none
          rw [flushAt_chunks_same]; exact unflushedId_markFlushed _ _
  | some p =>
    cases hp : (cs.chunks (cs.curChunk ^^^ 1)).unflushedId ops with
    | none =>
      refine ⟨_, writeLoop_some_skip ops cs p hc (Or.inl hp), flushAt_curChunk _ _ _ _,
        flushAt_pending _ _ _ _, ?_, ?_⟩
      · intro k
        rcases hk k with h | h <;> subst h
        · exact Or.inr ⟨by rw [hc]; simp, flushAt_chunks_same _ _ _ _⟩
        · exact Or.inl (flushAt_chunks_flip _ _ _ _)
      · intro _ k
        rcases hk k with h | h <;> subst h
        · show attrAppender.unflushedId ops ((cs.flushAt ops cs.curChunk p).chunks _) = none
          rw [flushAt_chunks_same]; exact unflushedId_markFlushed _ _
        · show attrAppender.unflushedId ops ((cs.flushAt ops cs.curChunk p).chunks _) = none
          rw [flushAt_chunks_flip]; exact hp
    | some q =>
      by_cases hpq : p = -1 ∨ p = q
      · have e1 : ((cs.flushAt ops cs.curChunk p).flushAt ops (cs.curChunk ^^^ 1) q).chunks
            cs.curChunk = (cs.chunks cs.curChunk).markFlushed ops := by
          rw [flushAt_chunks_flip2, flushAt_chunks_same]
        have e2 : ((cs.flushAt ops cs.curChunk p).flushAt ops (cs.curChunk ^^^ 1) q).chunks
            (cs.curChunk ^^^ 1) = (cs.chunks (cs.curChunk ^^^ 1)).markFlushed ops := by
          rw [flushAt_chunks_same, flushAt_chunks_flip]
        refine ⟨_, writeLoop_some_some ops cs p q hc hp hpq, ?_, ?_, ?_, ?_⟩
        · show ((cs.flushAt ops cs.curChunk p).flushAt ops (cs.curChunk ^^^ 1) q).curChunk = _
          rw [flushAt_curChunk, flushAt_curChunk]
        · show ((cs.flushAt ops cs.curChunk p).flushAt ops (cs.curChunk ^^^ 1) q).pending = _
          rw [flushAt_pending, flushAt_pending]
        · intro k
          rcases hk k with h | h <;> subst h
          · exact Or.inr ⟨by rw [hc]; simp, e1⟩
          · exact Or.inr ⟨by rw [hp]; simp, e2⟩
        · intro _ k
          rcases hk k with h | h <;> subst h
          · show attrAppender.unflushedId ops (chunkStore.chunks _ _) = none
            rw [e1]; exact unflushedId_markFlushed _ _
          · show attrAppender.unflushedId ops (chunkStore.chunks _ _) = none
            rw [e2]; exact unflushedId_markFlushed _ _
      · have hne : p ≠ -1 ∧ p ≠ q := by
          constructor
          · exact fun h => hpq (Or.inl h)
          · exact fun h => hpq (Or.inr h)
        refine ⟨_, writeLoop_some_skip ops cs p hc (Or.inr ⟨q, hp, hne.1, hne.2⟩),
          flushAt_curChunk _ _ _ _, flushAt_pending _ _ _ _, ?_, ?_⟩
        · intro k
          rcases hk k with h | h <;> subst h
          · exact Or.inr ⟨by rw [hc]; simp, flushAt_chunks_same _ _ _ _⟩
          · exact Or.inl (flushAt_chunks_flip _ _ _ _)
        · intro hnd
          exact absurd (hnd p q rfl rfl) hpq

theorem fin2_cur_or_flip (c k : Fin 2) : k = c ∨ k = c ^^^ 1 := by
  revert c k; decide


/-- The loop of `WriteChunks` when the first buffer it finds with something to
flush belongs to the table `p` and `p` is not -1: the table of the loop is
`p`, exactly the buffers that hold unflushed samples of that table are
flushed and their fragments collected, the current one first, the
initialization is asked for exactly when `p > lastTid`, and `lastTid` becomes
the greater of the two. -/
theorem writeLoop_table (ops : Collaborators Part Enc) (cs : chunkStore Part Enc) (p : Int)
    (hf : (cs.chunks cs.curChunk).unflushedId ops = some p ∨
      ((cs.chunks cs.curChunk).unflushedId ops = none ∧
        (cs.chunks (cs.curChunk ^^^ 1)).unflushedId ops = some p))
    (hsent : p ≠ -1) :
    ∃ st, (writeChunksRound ops 0
        { cs := cs, tableId := -1, expr := "", notInitialized := false }).bind
        (writeChunksRound ops 1) = some st ∧
      st.tableId = p ∧
      st.notInitialized = decide (p > cs.lastTid) ∧
      st.cs.lastTid = max cs.lastTid p ∧
      st.expr =
        (if (cs.chunks cs.curChunk).unflushedId ops = some p
          then (cs.chunks cs.curChunk).fragment ops else "") ++
        (if (cs.chunks (cs.curChunk ^^^ 1)).unflushedId ops = some p
          then (cs.chunks (cs.curChunk ^^^ 1)).fragment ops else "") ∧
      ∀ k, st.cs.chunks k =
        if (cs.chunks k).unflushedId ops = some p then (cs.chunks k).markFlushed ops
        else cs.chunks k := by
  have hk : ∀ k : Fin 2, k = cs.curChunk ∨ k = cs.curChunk ^^^ 1 :=
    fun k => fin2_cur_or_flip cs.curChunk k
  rcases hf with hc | ⟨hc, hp⟩
  · cases hp : (cs.chunks (cs.curChunk ^^^ 1)).unflushedId ops with
    | none =>
      refine ⟨_, writeLoop_some_skip ops cs p hc (Or.inl hp), rfl, rfl,
        flushAt_lastTid _ _ _ _, by simp [hc], ?_⟩
      intro k
      rcases hk k with h | h <;> subst h
      · rw [if_pos hc]; exact flushAt_chunks_same _ _ _ _
      · rw [hp, if_neg (by simp)]; exact flushAt_chunks_flip _ _ _ _
    | some q =>
      by_cases hpq : p = q
      · subst hpq
        refine ⟨_, writeLoop_some_some ops cs p p hc hp (Or.inr rfl), rfl, ?_, ?_,
          by simp [hc], ?_⟩
        · show (decide (p > cs.lastTid) || decide (p > (cs.flushAt ops cs.curChunk p).lastTid)) = _
          rw [flushAt_lastTid]
          have : ¬ p > max cs.lastTid p := not_lt.mpr (le_max_right _ _)
          simp [this]
        · show ((cs.flushAt ops cs.curChunk p).flushAt ops (cs.curChunk ^^^ 1) p).lastTid = _
          rw [flushAt_lastTid, flushAt_lastTid, max_assoc, max_self]
        · intro k
          rcases hk k with h | h <;> subst h
          · rw [if_pos hc]
            show ((cs.flushAt ops cs.curChunk p).flushAt ops (cs.curChunk ^^^ 1) p).chunks
              cs.curChunk = _
            rw [flushAt_chunks_flip2, flushAt_chunks_same]
          · rw [if_pos hp]
            show ((cs.flushAt ops cs.curChunk p).flushAt ops (cs.curChunk ^^^ 1) p).chunks
              (cs.curChunk ^^^ 1) = _
            rw [flushAt_chunks_same, flushAt_chunks_flip]
      · refine ⟨_, writeLoop_some_skip ops cs p hc (Or.inr ⟨q, hp, hsent, hpq⟩), rfl, rfl,
          flushAt_lastTid _ _ _ _, ?_, ?_⟩
        · have : ¬ q = p := fun h => hpq h.symm
          simp [hc, this]
        · intro k
          rcases hk k with h | h <;> subst h
          · rw [if_pos hc]; exact flushAt_chunks_same _ _ _ _
          · rw [hp, if_neg (by simpa using fun h => hpq h.symm)]
            exact flushAt_chunks_flip _ _ _ _
  · refine ⟨_, writeLoop_none_some ops cs p hc hp, rfl, rfl, flushAt_lastTid _ _ _ _,
      by simp [hc, hp], ?_⟩
    intro k
    rcases hk k with h | h <;> subst h
    · rw [hc, if_neg (by simp)]; exact flushAt_chunks_flip2 _ _ _ _
    · rw [if_pos hp]; exact flushAt_chunks_same _ _ _ _

/-- A `WriteChunks` call on a store not in FetchingState in which the first
buffer found with unflushed samples belongs to the table `p`, `p` not -1,
hands the container one expression: the initialization clauses when
`p > lastTid`, then the fragments of the buffers of table `p`.  When the
container accepts it, exactly those buffers are flushed and `lastTid` is
`max lastTid p` afterwards. -/
theorem WriteChunks_table (ops : Collaborators Part Enc) (cs : chunkStore Part Enc)
    (mc : MetricsCache) (metric : MetricState) (p : Int)
    (hs : cs.state ≠ storeStateGet)
    (hf : (cs.chunks cs.curChunk).unflushedId ops = some p ∨
      ((cs.chunks cs.curChunk).unflushedId ops = none ∧
        (cs.chunks (cs.curChunk ^^^ 1)).unflushedId ops = some p))
    (hsent : p ≠ -1) :
    match ops.UpdateItem
        { Path := GetMetricPath metric mc.cfg.Path ""
          Expression := (if p > cs.lastTid then initClauses metric else "") ++
            ((if (cs.chunks cs.curChunk).unflushedId ops = some p
              then (cs.chunks cs.curChunk).fragment ops else "") ++
            (if (cs.chunks (cs.curChunk ^^^ 1)).unflushedId ops = some p
              then (cs.chunks (cs.curChunk ^^^ 1)).fragment ops else "")) } with
    | Except.error err => ∃ cs1, cs.WriteChunks ops mc metric = Outcome.err err (cs1, mc)
    | Except.ok id =>
        ∃ cs1,
          cs.WriteChunks ops mc metric =
            Outcome.ok
              (cs1,
               { mc with
                 requestsMap := (id, metric) :: mc.requestsMap
                 issued := mc.issued ++
                   [Request.updateItem
                     { Path := GetMetricPath metric mc.cfg.Path ""
                       Expression := (if p > cs.lastTid then initClauses metric else "") ++
                         ((if (cs.chunks cs.curChunk).unflushedId ops = some p
                           then (cs.chunks cs.curChunk).fragment ops else "") ++
                         (if (cs.chunks (cs.curChunk ^^^ 1)).unflushedId ops = some p
                           then (cs.chunks (cs.curChunk ^^^ 1)).fragment ops else "")) }] }) ∧
          cs1.lastTid = max cs.lastTid p ∧
          ∀ k, cs1.chunks k =
            if (cs.chunks k).unflushedId ops = some p then (cs.chunks k).markFlushed ops
            else cs.chunks k := by
  obtain ⟨st, hl, ht, hn, hlast, hexpr, hk⟩ := writeLoop_table ops cs p hf hsent
  rw [WriteChunks_eq_finish ops cs mc metric st hs hl]
  simp only [writeChunksFinish, ht, hsent, if_false, hn, decide_eq_true_eq, hexpr]
  cases hu : ops.UpdateItem
      { Path := GetMetricPath metric mc.cfg.Path ""
        Expression := (if p > cs.lastTid then initClauses metric else "") ++
          ((if (cs.chunks cs.curChunk).unflushedId ops = some p
            then (cs.chunks cs.curChunk).fragment ops else "") ++
          (if (cs.chunks (cs.curChunk ^^^ 1)).unflushedId ops = some p
            then (cs.chunks (cs.curChunk ^^^ 1)).fragment ops else "")) } with
  | error err => exact ⟨_, rfl⟩
  | ok id => exact ⟨_, rfl, hlast, hk⟩

/-- What `Append` does to the two buffers, whether it returns an error or
not: each buffer is left as it was, or has taken the sample, or was bound
anew with a fresh appender and has taken the sample.  `R` is any relation
between a buffer before and after that these three steps respect. -/
theorem Append_buffers (ops : Collaborators Part Enc)
    (R : attrAppender Part Enc → attrAppender Part Enc → Prop) (t : Int) (v : Value)
    (hrefl : ∀ a, R a a)
    (happ : ∀ a a1, a.appendAttr ops t v = some a1 → R a a1)
    (hnew : ∀ a part app a1, ops.NewAppender = Except.ok app →
      attrAppender.appendAttr ops
        { attrAppender.initialize ops a part t with appender := some app } t v = some a1 →
      R a a1)
    (cs cs1 : chunkStore Part Enc)
    (h : discardErr (cs.Append ops t v) = Outcome.ok cs1) :
    ∀ k, R (cs.chunks k) (cs1.chunks k) := by
  have hset : ∀ (i : Fin 2) (a1 : attrAppender Part Enc), R (cs.chunks i) a1 →
      ∀ k, R (cs.chunks k) ((cs.setChunk i a1).chunks k) := by
    intro i a1 hr k
    by_cases hk : k = i
    · subst hk; rw [chunks_setChunk_same]; exact hr
    · rw [eq_flip_of_ne i k hk, chunks_setChunk_flip]; exact hrefl _
  unfold chunkStore.Append at h
  by_cases hst : cs.state = storeStateGet ∨ cs.state = storeStateInit
  · rw [if_pos hst] at h
    simp only [discardErr, Outcome.ok.injEq] at h
    subst h
    intro k; exact hrefl _
  rw [if_neg hst] at h
  simp only [] at h
  cases hin : (cs.chunks cs.curChunk).inRange ops t with
  | none => simp [hin, discardErr] at h
  | some b =>
    cases b with
    | true =>
      cases ha : (cs.chunks cs.curChunk).appendAttr ops t v with
      | none => simp [hin, ha, discardErr] at h
      | some a1 =>
        simp only [hin, ha, discardErr, Outcome.ok.injEq] at h
        subst h
        exact hset _ _ (happ _ _ ha)
    | false =>
      cases hah : (cs.chunks cs.curChunk).isAhead ops t with
      | none => simp [hin, hah, discardErr] at h
      | some b =>
        cases b with
        | true =>
          cases hp : (cs.chunks cs.curChunk).partition with
          | none => simp [hin, hah, hp, discardErr] at h
          | some part =>
            by_cases hw : (cs.chunks (cs.curChunk ^^^ 1)).writing = true
            · simp only [hin, hah, hp, hw, if_true, discardErr, Outcome.ok.injEq] at h
              subst h
              intro k; exact hrefl _
            · simp only [Bool.not_eq_true] at hw
              cases hal : ops.NewAppender with
              | error e =>
                simp only [hin, hah, hp, hw, hal, Bool.false_eq_true, if_false, discardErr, Outcome.ok.injEq] at h
                subst h
                intro k; exact hrefl _
              | ok app =>
                cases ha : attrAppender.appendAttr ops
                    { attrAppender.initialize ops (cs.chunks (cs.curChunk ^^^ 1))
                        (ops.NextPart part t) t with appender := some app } t v with
                | none => simp [hin, hah, hp, hw, hal, ha, discardErr] at h
                | some a1 =>
                  simp only [hin, hah, hp, hw, hal, ha, Bool.false_eq_true, if_false, discardErr, Outcome.ok.injEq] at h
                  subst h
                  intro k
                  exact hset _ _ (hnew _ _ _ _ hal ha) k
        | false =>
          cases hpr : (cs.chunks (cs.curChunk ^^^ 1)).inRange ops t with
          | none => simp [hin, hah, hpr, discardErr] at h
          | some inPrev =>
            by_cases hc : (inPrev &&
                decide (t > wrapInt64 ((cs.chunks cs.curChunk).lastT - MAX_LATE_WRITE))) = true
            · cases ha : (cs.chunks (cs.curChunk ^^^ 1)).appendAttr ops t v with
              | none => simp [hin, hah, hpr, hc, ha, discardErr] at h
              | some a1 =>
                simp only [hin, hah, hpr, hc, ha, if_true, discardErr, Outcome.ok.injEq] at h
                subst h
                exact hset _ _ (happ _ _ ha)
            · simp only [hin, hah, hpr, hc, Bool.false_eq_true, if_false, discardErr,
                Outcome.ok.injEq] at h
              subst h
              intro k; exact hrefl _

/-- The replay of the pending samples moves each buffer by steps of
`Append`. -/
theorem replayPending_buffers (ops : Collaborators Part Enc)
    (R : attrAppender Part Enc → attrAppender Part Enc → Prop)
    (hrefl : ∀ a, R a a) (htrans : ∀ a b c, R a b → R b c → R a c)
    (happ : ∀ t v a a1, a.appendAttr ops t v = some a1 → R a a1)
    (hnew : ∀ t v a part app a1, ops.NewAppender = Except.ok app →
      attrAppender.appendAttr ops
        { attrAppender.initialize ops a part t with appender := some app } t v = some a1 →
      R a a1)
    (l : List pendingData) :
    ∀ cs cs1 : chunkStore Part Enc, replayPending ops cs l = Outcome.ok cs1 →
      ∀ k, R (cs.chunks k) (cs1.chunks k) := by
  induction l with
  | nil =>
    intro cs cs1 h k
    simp only [replayPending, Outcome.ok.injEq] at h
    subst h; exact hrefl _
  | cons d rest ih =>
    intro cs cs1 h k
    simp only [replayPending] at h
    cases hA : cs.Append ops d.t d.v with
    | ok cs2 =>
      rw [hA] at h
      exact htrans _ _ _
        (Append_buffers ops R d.t d.v hrefl (happ d.t d.v) (hnew d.t d.v) cs cs2
          (by rw [hA]; rfl) k) (ih cs2 cs1 h k)
    | err m cs2 =>
      rw [hA] at h
      exact htrans _ _ _
        (Append_buffers ops R d.t d.v hrefl (happ d.t d.v) (hnew d.t d.v) cs cs2
          (by rw [hA]; rfl) k) (ih cs2 cs1 h k)
    | fault => rw [hA] at h; exact absurd h (by simp)

/-- The store `WriteChunks` leaves, whether the container accepts the request
or not: each buffer is as it was or has been flushed by the loop, and the
pending list and the current index are kept. -/
theorem WriteChunks_buffers (ops : Collaborators Part Enc) (cs : chunkStore Part Enc)
    (mc : MetricsCache) (metric : MetricState) :
    ∃ cs1 mc1, (cs.WriteChunks ops mc metric = Outcome.ok (cs1, mc1) ∨
        ∃ e, cs.WriteChunks ops mc metric = Outcome.err e (cs1, mc1)) ∧
      cs1.curChunk = cs.curChunk ∧ cs1.pending = cs.pending ∧
      ∀ k, cs1.chunks k = cs.chunks k ∨
        ((cs.chunks k).unflushedId ops ≠ none ∧ cs1.chunks k = (cs.chunks k).markFlushed ops) := by
  by_cases hs : cs.state = storeStateGet
  · refine ⟨cs, mc, Or.inl ?_, rfl, rfl, fun k => Or.inl rfl⟩
    unfold chunkStore.WriteChunks; rw [if_pos hs]
  · obtain ⟨st, hl, hc, hp, hk, -⟩ := writeLoop_total ops cs
    obtain ⟨mc1, hf⟩ := writeChunksFinish_cases ops mc metric st
    rw [← WriteChunks_eq_finish ops cs mc metric st hs hl] at hf
    exact ⟨st.cs, mc1, hf, hc, hp, hk⟩

/-- What one call of a public operation does to the two buffers.  `R` is any
relation between a buffer before and after that the elementary steps respect:
taking a sample, being bound anew, being flushed by `WriteChunks`, and having
a flush completed by `ProcessWriteResp`. -/
theorem step_buffers (ops : Collaborators Part Enc) (metric : MetricState)
    (R : attrAppender Part Enc → attrAppender Part Enc → Prop)
    (hrefl : ∀ a, R a a) (htrans : ∀ a b c, R a b → R b c → R a c)
    (happ : ∀ t v a a1, a.appendAttr ops t v = some a1 → R a a1)
    (hnew : ∀ t v a part app a1, ops.NewAppender = Except.ok app →
      attrAppender.appendAttr ops
        { attrAppender.initialize ops a part t with appender := some app } t v = some a1 →
      R a a1)
    (hinit : ∀ t a part, R a
      { attrAppender.initialize ops a part t with
        appender := match ops.NewAppender with
          | Except.ok e => some e
          | Except.error _ => none })
    (hdone : ∀ a a1, flushDone ops a = some a1 → R a a1)
    (s s1 : chunkStore Part Enc × MetricsCache) (op : Op)
    (hflush : op = Op.writeChunks →
      ∀ a, a.unflushedId ops ≠ none → R a (a.markFlushed ops))
    (h : step ops metric s op = some s1) :
    ∀ k, R (s.1.chunks k) (s1.1.chunks k) := by
  cases op with
  | getChunksState t =>
    have key : ∀ r : chunkStore Part Enc × MetricsCache,
        (s.1.GetChunksState ops s.2 metric t = Outcome.ok r ∨
          ∃ e, s.1.GetChunksState ops s.2 metric t = Outcome.err e r) →
        ∀ k, R (s.1.chunks k) (r.1.chunks k) := by
      intro r hr k
      have hr1 : r.1.chunks1 = s.1.chunks1 ∧ r.1.chunks0 =
          { attrAppender.initialize ops s.1.chunks0 (ops.TimeToPart t) t with
            appender := match ops.NewAppender with
              | Except.ok e => some e
              | Except.error _ => none } := by
        unfold chunkStore.GetChunksState at hr
        simp only [] at hr
        by_cases ho : s.2.cfg.OverrideOld = true
        · simp only [ho, if_true, Outcome.ok.injEq, reduceCtorEq, exists_false, or_false] at hr
          subst hr; exact ⟨rfl, rfl⟩
        · simp only [ho, Bool.false_eq_true, if_false] at hr
          cases hg : ops.GetItem
              { Path := GetMetricPath metric s.2.cfg.Path (ops.GetPath (ops.TimeToPart t))
                AttributeNames := ["_maxtime", "_meta"] } with
          | error e =>
            simp only [hg, reduceCtorEq, false_or, Outcome.err.injEq] at hr
            obtain ⟨_, -, hr⟩ := hr
            subst hr; exact ⟨rfl, rfl⟩
          | ok id =>
            simp only [hg, Outcome.ok.injEq, reduceCtorEq, exists_false, or_false] at hr
            subst hr; exact ⟨rfl, rfl⟩
      by_cases hk : k = 0
      · subst hk
        show R s.1.chunks0 r.1.chunks0
        rw [hr1.2]; exact hinit _ _ _
      · simp only [chunkStore.chunks, hk, if_false]
        rw [hr1.1]; exact hrefl _
    simp only [step] at h
    cases hg : s.1.GetChunksState ops s.2 metric t with
    | ok r => rw [hg] at h; injection h with h; subst h; exact key _ (Or.inl hg)
    | err e r => rw [hg] at h; injection h with h; subst h; exact key _ (Or.inr ⟨e, hg⟩)
    | fault => rw [hg] at h; exact absurd h (by simp)
  | processGetResp resp =>
    have key : s.1.ProcessGetResp ops resp = Outcome.fault ∨
        ∃ cs1, s.1.ProcessGetResp ops resp = Outcome.ok cs1 ∧
          cs1.chunks0 = s.1.chunks0 ∧ cs1.chunks1 = s.1.chunks1 := by
      unfold chunkStore.ProcessGetResp
      simp only []
      cases resp.Error with
      | some m => exact Or.inr ⟨_, rfl, rfl, rfl⟩
      | none =>
        cases resp.Output with
        | other d => exact Or.inl rfl
        | getItemOutput item =>
          cases hp : s.1.chunks0.partition with
          | none =>
            cases hl : item.lookup "_maxtime" with
            | none => simp [hp, hl]
            | some a => cases a <;> simp [hp, hl]
          | some p =>
            cases hl : item.lookup "_maxtime" with
            | none => simp [hp, hl]
            | some a => cases a <;> simp [hp, hl]
    simp only [step] at h
    rcases key with hg | ⟨cs1, hg, h0, h1⟩
    · rw [hg] at h; exact absurd h (by simp)
    · rw [hg] at h; injection h with h; subst h
      intro k
      by_cases hk : k = 0
      · subst hk; show R s.1.chunks0 cs1.chunks0; rw [h0]; exact hrefl _
      · simp only [chunkStore.chunks, hk, if_false]; rw [h1]; exact hrefl _
  | append t v =>
    simp only [step] at h
    cases hg : s.1.Append ops t v with
    | ok cs1 =>
      rw [hg] at h; injection h with h; subst h
      exact Append_buffers ops R t v hrefl (happ t v) (hnew t v) s.1 cs1 (by rw [hg]; rfl)
    | err e cs1 =>
      rw [hg] at h; injection h with h; subst h
      exact Append_buffers ops R t v hrefl (happ t v) (hnew t v) s.1 cs1 (by rw [hg]; rfl)
    | fault => rw [hg] at h; exact absurd h (by simp)
  | writeChunks =>
    obtain ⟨cs1, mc1, hw, -, -, hk⟩ := WriteChunks_buffers ops s.1 s.2 metric
    have hs1 : s1 = (cs1, mc1) := by
      simp only [step] at h
      rcases hw with hw | ⟨e, hw⟩
      · rw [hw] at h; injection h with h; exact h.symm
      · rw [hw] at h; injection h with h; exact h.symm
    subst hs1
    intro k
    rcases hk k with hk | ⟨hu, hk⟩
    · show R _ (cs1.chunks k); rw [hk]; exact hrefl _
    · show R _ (cs1.chunks k); rw [hk]; exact hflush rfl _ hu
  | processWriteResp =>
    simp only [step] at h
    cases hg : s.1.ProcessWriteResp ops with
    | fault => rw [hg] at h; exact absurd h (by simp)
    | err e cs1 =>
      exfalso
      unfold chunkStore.ProcessWriteResp at hg
      cases hc : completeFlush ops s.1 with
      | none => simp [hc] at hg
      | some cs0 =>
        simp only [hc] at hg
        rw [replayPending_eq_foldl] at hg
        have : ∀ (l : List pendingData) (o : Outcome (chunkStore Part Enc)),
            (∀ e c, o ≠ Outcome.err e c) →
            ∀ e c, List.foldl (replayStep ops) o l ≠ Outcome.err e c := by
          intro l
          induction l with
          | nil => intro o ho; simpa using ho
          | cons d rest ih =>
            intro o ho
            simp only [List.foldl]
            apply ih
            intro e c
            cases o with
            | ok c0 =>
              simp only [replayStep]
              cases hA : c0.Append ops d.t d.v <;> simp [discardErr]
            | err e0 c0 => exact absurd rfl (ho e0 c0)
            | fault => simp [replayStep]
        exact this _ _ (by simp) e cs1 hg
    | ok cs1 =>
      rw [hg] at h; injection h with h; subst h
      unfold chunkStore.ProcessWriteResp at hg
      cases hc : completeFlush ops s.1 with
      | none => simp [hc] at hg
      | some cs0 =>
        simp only [hc] at hg
        obtain ⟨h0, h1, -⟩ := completeFlush_spec ops s.1 cs0 hc
        intro k
        refine htrans _ _ _ ?_
          (replayPending_buffers ops R hrefl htrans happ hnew _ cs0 cs1 hg k)
        by_cases hk : k = 0
        · subst hk; exact hdone _ _ h0
        · simp only [chunkStore.chunks, hk, if_false]; exact hdone _ _ h1
  | setState state =>
    simp only [step, Option.some.injEq] at h
    subst h
    intro k; exact hrefl _


/-- Every call of a public operation keeps the flushed count of each buffer
within the number of samples of its encoder, for encoders that start empty,
gain one sample per append and keep their samples when the offset moves. -/
theorem step_counts (ops : Collaborators Part Enc) (metric : MetricState)
    (hnew : ∀ e, ops.NewAppender = Except.ok e → ops.NumSamples e = 0)
    (happ : ∀ e t x, ops.NumSamples (ops.Append e t x) = ops.NumSamples e + 1)
    (hmove : ∀ e m, ops.NumSamples (ops.MoveOffset e m) = ops.NumSamples e)
    (s s1 : chunkStore Part Enc × MetricsCache) (op : Op)
    (h : step ops metric s op = some s1)
    (hinv : ∀ k e, (s.1.chunks k).appender = some e →
      (s.1.chunks k).updCount ≤ ops.NumSamples e) :
    ∀ k e, (s1.1.chunks k).appender = some e → (s1.1.chunks k).updCount ≤ ops.NumSamples e := by
  intro k
  refine step_buffers ops metric
    (fun a a1 => (∀ e, a.appender = some e → a.updCount ≤ ops.NumSamples e) →
      ∀ e, a1.appender = some e → a1.updCount ≤ ops.NumSamples e)
    (fun _ h => h) (fun _ _ _ h1 h2 h => h2 (h1 h)) ?_ ?_ ?_ ?_ s s1 op ?_ h k (hinv k)
  · intro t v a a1 ha hP e he
    unfold attrAppender.appendAttr at ha
    cases hae : a.appender with
    | none => simp [hae] at ha
    | some e0 =>
      cases v with
      | other d => simp [hae] at ha
      | float64 x =>
        simp only [hae, Option.some.injEq] at ha
        subst ha
        simp only [Option.some.injEq] at he
        subst he
        rw [happ]
        have := hP e0 hae
        show a.updCount ≤ _
        omega
  · intro t v a part app a1 hal ha _ e he
    unfold attrAppender.appendAttr at ha
    cases v with
    | other d => simp at ha
    | float64 x =>
      simp only [Option.some.injEq] at ha
      subst ha
      have he2 : some (ops.Append app t x) = some e := he
      injection he2 with he2
      subst he2
      rw [happ, hnew app hal]
      show (0 : Int) ≤ 0 + 1
      omega
  · intro t a part _ e he
    cases hal : ops.NewAppender with
    | error m => simp [hal] at he
    | ok app =>
      simp only [hal, Option.some.injEq] at he
      subst he
      rw [hnew _ hal]
      show (0 : Int) ≤ 0
      omega
  · intro a a1 hd hP e he
    unfold flushDone at hd
    by_cases hw : a.writing = true
    · rw [if_pos hw] at hd
      cases hae : a.appender with
      | none => simp [hae] at hd
      | some e0 =>
        simp only [hae, Option.some.injEq] at hd
        subst hd
        simp only [Option.some.injEq] at he
        subst he
        rw [hmove]
        exact hP e0 hae
    · rw [if_neg hw] at hd
      simp only [Option.some.injEq] at hd
      subst hd
      exact hP e he
  · intro _ a _ _ e he
    unfold attrAppender.markFlushed at he ⊢
    cases hae : a.appender with
    | none => simp [hae] at he
    | some e0 =>
      simp only [hae, Option.some.injEq] at he ⊢
      subst he
      exact le_refl _

/-- The bound of `step_counts` along a run. -/
theorem run_counts (ops : Collaborators Part Enc) (metric : MetricState)
    (hnew : ∀ e, ops.NewAppender = Except.ok e → ops.NumSamples e = 0)
    (happ : ∀ e t x, ops.NumSamples (ops.Append e t x) = ops.NumSamples e + 1)
    (hmove : ∀ e m, ops.NumSamples (ops.MoveOffset e m) = ops.NumSamples e)
    (l : List Op) :
    ∀ s s1 : chunkStore Part Enc × MetricsCache, run ops metric s l = some s1 →
      (∀ k e, (s.1.chunks k).appender = some e → (s.1.chunks k).updCount ≤ ops.NumSamples e) →
      ∀ k e, (s1.1.chunks k).appender = some e →
        (s1.1.chunks k).updCount ≤ ops.NumSamples e := by
  induction l with
  | nil =>
    intro s s1 h hinv
    simp only [run, Option.some.injEq] at h
    subst h; exact hinv
  | cons op rest ih =>
    intro s s1 h hinv
    simp only [run] at h
    cases hs : step ops metric s op with
    | none => simp [hs] at h
    | some s2 =>
      simp only [hs] at h
      exact ih s2 s1 h (step_counts ops metric hnew happ hmove s s2 op hs hinv)

/-- A buffer whose flushed count is within the samples of its encoder is not
behind by a negative number. -/
theorem behind_nonneg (ops : Collaborators Part Enc) (a : attrAppender Part Enc)
    (h : ∀ e, a.appender = some e → a.updCount ≤ ops.NumSamples e) : 0 ≤ a.behind ops := by
  unfold attrAppender.behind
  cases hae : a.appender with
  | none => simp
  | some e => have := h e hae; simp only []; omega


/-- The loop of `WriteChunks` leaves one of the two buffers as it was when
the two are not flushed by the same round. -/
theorem writeLoop_one_untouched (ops : Collaborators Part Enc) (cs : chunkStore Part Enc)
    (hg : ∀ p q, (cs.chunks cs.curChunk).unflushedId ops = some p →
      (cs.chunks (cs.curChunk ^^^ 1)).unflushedId ops = some q → p ≠ -1 ∧ p ≠ q) :
    ∃ st, (writeChunksRound ops 0
        { cs := cs, tableId := -1, expr := "", notInitialized := false }).bind
        (writeChunksRound ops 1) = some st ∧
      ∃ k, st.cs.chunks k = cs.chunks k := by
  cases hc : (cs.chunks cs.curChunk).unflushedId ops with
  | none =>
    cases hp : (cs.chunks (cs.curChunk ^^^ 1)).unflushedId ops with
    | none => exact ⟨_, writeLoop_none_none ops cs hc hp, 0, rfl⟩
    | some q =>
      exact ⟨_, writeLoop_none_some ops cs q hc hp, cs.curChunk, flushAt_chunks_flip2 _ _ _ _⟩
  | some p =>
    cases hp : (cs.chunks (cs.curChunk ^^^ 1)).unflushedId ops with
    | none =>
      exact ⟨_, writeLoop_some_skip ops cs p hc (Or.inl hp), cs.curChunk ^^^ 1,
        flushAt_chunks_flip _ _ _ _⟩
    | some q =>
      obtain ⟨h1, h2⟩ := hg p q hc hp
      exact ⟨_, writeLoop_some_skip ops cs p hc (Or.inr ⟨q, hp, h1, h2⟩), cs.curChunk ^^^ 1,
        flushAt_chunks_flip _ _ _ _⟩

/-- A `WriteChunks` call made under `flushAllowed` leaves at most one buffer
with `writing` set. -/
theorem WriteChunks_allowed (ops : Collaborators Part Enc) (cs : chunkStore Part Enc)
    (mc : MetricsCache) (metric : MetricState) (ha : cs.flushAllowed ops = true)
    (r : chunkStore Part Enc × MetricsCache)
    (h : cs.WriteChunks ops mc metric = Outcome.ok r ∨
      ∃ e, cs.WriteChunks ops mc metric = Outcome.err e r) :
    ¬((r.1.chunks 0).writing = true ∧ (r.1.chunks 1).writing = true) := by
  unfold chunkStore.flushAllowed at ha
  simp only [Bool.and_eq_true, Bool.not_eq_true'] at ha
  obtain ⟨⟨hw0, hw1⟩, hm⟩ := ha
  have hw : ∀ k, (cs.chunks k).writing = false := by
    intro k
    by_cases hk : k = 0
    · subst hk; exact hw0
    · simp only [chunkStore.chunks, hk, if_false]; exact hw1
  have key : ∀ k, r.1.chunks k = cs.chunks k →
      ¬((r.1.chunks 0).writing = true ∧ (r.1.chunks 1).writing = true) := by
    intro k hk ⟨h0, h1⟩
    have := hw k
    rw [← hk] at this
    rcases fin2_cur_or_flip 0 k with e | e
    · subst e; rw [this] at h0; exact absurd h0 (by simp)
    · rw [flip_zero] at e; subst e; rw [this] at h1; exact absurd h1 (by simp)
  by_cases hs : cs.state = storeStateGet
  · have hr : r = (cs, mc) := by
      unfold chunkStore.WriteChunks at h
      rw [if_pos hs] at h
      rcases h with h | ⟨e, h⟩
      · injection h with h; exact h.symm
      · exact absurd h (by simp)
    subst hr
    exact key 0 rfl
  · have hg : ∀ p q, (cs.chunks cs.curChunk).unflushedId ops = some p →
        (cs.chunks (cs.curChunk ^^^ 1)).unflushedId ops = some q → p ≠ -1 ∧ p ≠ q := by
      intro p q hp hq
      rw [hp, hq] at hm
      simpa using hm
    obtain ⟨st, hl, k, hk⟩ := writeLoop_one_untouched ops cs hg
    obtain ⟨mc1, hf⟩ := writeChunksFinish_cases ops mc metric st
    rw [← WriteChunks_eq_finish ops cs mc metric st hs hl] at hf
    have hr : r.1 = st.cs := by
      rcases h with h | ⟨e, h⟩ <;> rcases hf with hf | ⟨e1, hf⟩ <;> rw [h] at hf
      · injection hf with hf; rw [hf]
      · exact absurd hf (by simp)
      · exact absurd hf (by simp)
      · injection hf with _ hf; rw [hf]
    exact key k (by rw [hr]; exact hk)

/-- No call other than `WriteChunks` sets the `writing` flag of a buffer. -/
theorem step_writing (ops : Collaborators Part Enc) (metric : MetricState)
    (s s1 : chunkStore Part Enc × MetricsCache) (op : Op) (hop : op ≠ Op.writeChunks)
    (h : step ops metric s op = some s1) :
    ∀ k, (s1.1.chunks k).writing = true → (s.1.chunks k).writing = true := by
  refine step_buffers ops metric (fun a a1 => a1.writing = true → a.writing = true)
    (fun _ h => h) (fun _ _ _ h1 h2 h => h1 (h2 h)) ?_ ?_ ?_ ?_ s s1 op
    (fun e => absurd e hop) h
  · intro t v a a1 ha hw
    rw [← appendAttr_writing ops a a1 t v ha]; exact hw
  · intro t v a part app a1 _ ha hw
    rw [appendAttr_writing ops _ a1 t v ha] at hw
    exact absurd hw (by simp [ attrAppender.initialize])
  · intro t a part hw
    exact absurd hw (by simp [ attrAppender.initialize])
  · intro a a1 hd hw
    rw [(flushDone_writing ops a a1 hd).1] at hw
    exact absurd hw (by simp)

/-- Along a run in which `WriteChunks` is only called under `flushAllowed`,
at most one buffer has `writing` set. -/
theorem run_one_flight (ops : Collaborators Part Enc) (metric : MetricState) (l : List Op) :
    ∀ s s1 : chunkStore Part Enc × MetricsCache, run ops metric s l = some s1 →
      disciplined ops metric s l = true →
      ¬((s.1.chunks 0).writing = true ∧ (s.1.chunks 1).writing = true) →
      ¬((s1.1.chunks 0).writing = true ∧ (s1.1.chunks 1).writing = true) := by
  induction l with
  | nil =>
    intro s s1 h _ hinv
    simp only [run, Option.some.injEq] at h
    subst h; exact hinv
  | cons op rest ih =>
    intro s s1 h hd hinv
    simp only [run] at h
    simp only [disciplined, Bool.and_eq_true] at hd
    cases hs : step ops metric s op with
    | none => simp [hs] at h
    | some s2 =>
      simp only [hs] at h hd
      refine ih s2 s1 h hd.2 ?_
      by_cases hop : op = Op.writeChunks
      · subst hop
        simp only [step] at hs
        refine WriteChunks_allowed ops s.1 s.2 metric hd.1 s2 ?_
        cases hw : s.1.WriteChunks ops s.2 metric with
        | ok r => rw [hw] at hs; injection hs with hs; subst hs; exact Or.inl rfl
        | err e r => rw [hw] at hs; injection hs with hs; subst hs; exact Or.inr ⟨e, rfl⟩
        | fault => rw [hw] at hs; exact absurd hs (by simp)
      · intro ⟨h0, h1⟩
        exact hinv ⟨step_writing ops metric s s2 op hop hs 0 h0,
          step_writing ops metric s s2 op hop hs 1 h1⟩

end lemmas

/-- C1 (rotation backpressure, P3): in a store whose state is neither Init nor
FetchingState, a sample whose time is ahead of the current buffer's chunk
range (not in the range, and `IsAheadOfChunk` holds) while the other buffer
has `writing = true` makes `Append` return the error of line 223, and the
store it leaves behind is the store it was called on: buffers, `curChunk`,
`pending`, `lastTid` and `state` are all unchanged. -/
theorem Append_backpressure (ops : Collaborators Part Enc) (cs : chunkStore Part Enc)
    (t : Int) (v : Value)
    (hInit : cs.state ≠ storeStateInit) (hGet : cs.state ≠ storeStateGet)
    (hin : (cs.chunks cs.curChunk).inRange ops t = some false)
    (hahead : (cs.chunks cs.curChunk).isAhead ops t = some true)
    (hw : (cs.chunks (cs.curChunk ^^^ 1)).writing = true) :
    cs.Append ops t v = Outcome.err (errInFlight t) cs := by
  obtain ⟨part, hpart, -⟩ := isAhead_partition ops _ t true hahead
  simp [chunkStore.Append, hInit, hGet, hin, hahead, hpart, hw]

theorem Append_backpressure_witness :
    refStoreFlushing.Append refOps 10800000 (Value.float64 7)
      = Outcome.err (errInFlight 10800000) refStoreFlushing :=
  Append_backpressure refOps refStoreFlushing 10800000 (Value.float64 7)
    (by decide) (by decide) (by decide) (by decide) (by decide)

/-- C2 fails on the code: when `UpdateItem` refuses the request, `WriteChunks`
returns the error with everything the loop wrote still in place.  The store
`refStoreFirst` is reached from `NewChunkStore` by fetching the state, getting
the response and appending (3600010, 1).  After the failed `WriteChunks` the
state has gone from Ready to Update, `lastTid` from 0 to 1, and the current
buffer has `updMarker = 8`, `updCount = 1` and `writing = true`.  A second
`WriteChunks`, with a container that accepts updates, then finds nothing to
write and issues no request. -/
theorem WriteChunks_failure_commits :
    run refOps refMetric (NewChunkStore, refMC)
      [Op.getChunksState 3600010, Op.processGetResp respNotFound,
       Op.append 3600010 (Value.float64 1)] = some (refStoreFirst, refMCFetching) ∧
    refStoreFirst.WriteChunks refOpsDown refMCFetching refMetric =
      Outcome.err "UpdateItem: connection refused" (refStoreFirstFailed, refMCFetching) ∧
    (refStoreFirst.state = storeStateReady ∧ refStoreFirstFailed.state = storeStateUpdate) ∧
    (refStoreFirst.lastTid = 0 ∧ refStoreFirstFailed.lastTid = 1) ∧
    (refStoreFirst.chunks0.updMarker = 0 ∧ refStoreFirstFailed.chunks0.updMarker = 8) ∧
    (refStoreFirst.chunks0.updCount = 0 ∧ refStoreFirstFailed.chunks0.updCount = 1) ∧
    (refStoreFirst.chunks0.writing = false ∧ refStoreFirstFailed.chunks0.writing = true) ∧
    refStoreFirstFailed.WriteChunks refOps refMCFetching refMetric =
      Outcome.ok (refStoreFirstFailed, refMCFetching) := by
  decide

/-- C3 fails on the code: `ProcessWriteResp` replays `pending` and never
empties it.  The store `refStorePending` is reached from `NewChunkStore` by
fetching the state, appending (7200200, 1) meanwhile, getting the response,
appending (7200300, 2) and writing the chunk.  `ProcessWriteResp` then returns
with the queued sample appended to the buffer and still in `pending`, so
`UpdatesBehind` counts it in both places (2, where an emptied `pending` gives
1); the next `ProcessWriteResp` appends the same sample once more. -/
theorem ProcessWriteResp_keeps_pending :
    run refOps refMetric (NewChunkStore, refMC)
      [Op.getChunksState 7200000, Op.append 7200200 (Value.float64 1),
       Op.processGetResp respNotFound, Op.append 7200300 (Value.float64 2), Op.writeChunks]
      = some (refStorePending,
          { refMCFetching with
            requestsMap := (2, refMetric) :: refMCFetching.requestsMap
            issued := refMCFetching.issued ++
              [Request.updateItem
                { Path := "/tsdb/cpu.77"
                  Expression :=
                    "_name='cpu'; host='a'; _lset='cpu.key'; _meta=init_array(24,'int'); " ++
                    "_v2=init_array(1024,'int'); _meta[2]=1; _v2[0]=7200300; _v2[1]=2; " ++
                    "_maxtime=7200300" }] }) ∧
    refStorePending.ProcessWriteResp refOps = Outcome.ok (refStoreReplayed 1) ∧
    (refStoreReplayed 1).pending = [{ t := 7200200, v := Value.float64 1 }] ∧
    (refStoreReplayed 1).pending ≠ [] ∧
    (refStoreReplayed 1).chunks0.appender =
      some { samples := [(7200300, 2), (7200200, 1)], offset := 8 } ∧
    (refStoreReplayed 1).UpdatesBehind refOps = 2 ∧
    chunkStore.UpdatesBehind refOps { refStoreReplayed 1 with pending := [] } = 1 ∧
    (refStoreReplayed 1).ProcessWriteResp refOps = Outcome.ok (refStoreReplayed 2) ∧
    (refStoreReplayed 2).chunks0.appender =
      some { samples := [(7200300, 2), (7200200, 1), (7200200, 1)], offset := 8 } := by
  refine ⟨by rfl, by decide, by decide, by decide, by decide, by decide, by decide,
    by decide, by decide⟩

/-- C5 (flush completion), amended: in a store in which every buffer with
`writing = true` holds an appender, the first loop of `ProcessWriteResp`
completes (store `cs0`) and leaves state Ready and no buffer writing.  For a
buffer that had `writing = true` it has called `MoveOffset` on the appender
with `uint16(updMarker)`, that is `updMarker` modulo 65536, which is
`updMarker` itself when `0 ≤ updMarker < 65536`; the appender of a buffer that
had `writing = false` is untouched, and so is every other field but the
writing flag.  `ProcessWriteResp` then replays `pending` from `cs0`: with an
empty `pending` it returns `cs0`, and whenever it returns, the state is Ready
and no buffer has `writing = true`. -/
theorem ProcessWriteResp_flush_completion (ops : Collaborators Part Enc)
    (cs : chunkStore Part Enc)
    (henc : ∀ i, (cs.chunks i).writing = true → (cs.chunks i).appender ≠ none) :
    ∃ cs0, completeFlush ops cs = some cs0 ∧
      cs.ProcessWriteResp ops = replayPending ops cs0 cs.pending ∧
      cs0.state = storeStateReady ∧
      (∀ i, (cs0.chunks i).writing = false) ∧
      (∀ i, (cs.chunks i).writing = true →
        ∃ e, (cs.chunks i).appender = some e ∧
          (cs0.chunks i).appender =
            some (ops.MoveOffset e ((cs.chunks i).updMarker % 65536).toNat) ∧
          (0 ≤ (cs.chunks i).updMarker → (cs.chunks i).updMarker < 65536 →
            ((((cs.chunks i).updMarker % 65536).toNat : Nat) : Int) = (cs.chunks i).updMarker)) ∧
      (∀ i, (cs.chunks i).writing = false → (cs0.chunks i).appender = (cs.chunks i).appender) ∧
      (∀ i, { cs0.chunks i with appender := (cs.chunks i).appender }
        = { cs.chunks i with writing := false }) ∧
      (cs.pending = [] → cs.ProcessWriteResp ops = Outcome.ok cs0) ∧
      (∀ cs1, cs.ProcessWriteResp ops = Outcome.ok cs1 →
        cs1.state = storeStateReady ∧ ∀ i, (cs1.chunks i).writing = false) := by
  have hfd : ∀ c : attrAppender Part Enc, (c.writing = true → c.appender ≠ none) →
      ∃ c1, flushDone ops c = some c1 ∧
        (c.writing = true → ∃ e, c.appender = some e ∧
          c1.appender = some (ops.MoveOffset e (c.updMarker % 65536).toNat)) ∧
        (c.writing = false → c1.appender = c.appender) := by
    intro c hc
    unfold flushDone
    by_cases hw : c.writing = true
    · cases ha : c.appender with
      | none => exact absurd ha (hc hw)
      | some e =>
        exact ⟨{ c with
            appender := some (ops.MoveOffset e (c.updMarker % 65536).toNat)
            writing := false }, by simp [hw, ha], fun _ => ⟨e, rfl, rfl⟩,
          fun h => by simp [hw] at h⟩
    · exact ⟨c, by simp [hw], fun h => absurd h hw, fun _ => rfl⟩
  obtain ⟨c0, e0, a0, b0⟩ := hfd cs.chunks0 (henc 0)
  obtain ⟨c1, e1, a1, b1⟩ := hfd cs.chunks1 (henc 1)
  have hcf : completeFlush ops cs =
      some { cs with chunks0 := c0, chunks1 := c1, state := storeStateReady } := by
    simp [completeFlush, e0, e1]
  obtain ⟨hs, hw, hrest⟩ := completeFlush_frame ops cs _ hcf
  have hrun : cs.ProcessWriteResp ops =
      replayPending ops { cs with chunks0 := c0, chunks1 := c1, state := storeStateReady }
        cs.pending := by
    unfold chunkStore.ProcessWriteResp
    rw [hcf]
  have hmod : ∀ m : Int, 0 ≤ m → m < 65536 → (((m % 65536).toNat : Nat) : Int) = m := by
    intro m h0 h1
    rw [Int.toNat_of_nonneg (Int.emod_nonneg _ (by decide))]
    exact Int.emod_eq_of_lt h0 h1
  refine ⟨_, hcf, hrun, hs, hw, ?_, ?_, hrest, ?_, ?_⟩
  · intro i hi
    by_cases h0 : i = 0
    · subst h0
      obtain ⟨e, he, hm⟩ := a0 hi
      exact ⟨e, he, hm, hmod _⟩
    · simp only [chunkStore.chunks, h0, if_false] at hi ⊢
      obtain ⟨e, he, hm⟩ := a1 hi
      exact ⟨e, he, hm, hmod _⟩
  · intro i hi
    by_cases h0 : i = 0
    · subst h0; exact b0 hi
    · simp only [chunkStore.chunks, h0, if_false] at hi ⊢
      exact b1 hi
  · intro hnil
    rw [hrun, hnil]; rfl
  · intro cs1 h1
    rw [hrun] at h1
    obtain ⟨k1, k2, -⟩ := replayPending_ready ops cs.pending _ cs1 hs hw h1
    exact ⟨k1, k2⟩

theorem ProcessWriteResp_flush_completion_witness :
    (∀ i, (refStoreFlushing.chunks i).writing = true →
      (refStoreFlushing.chunks i).appender ≠ none) ∧
    ∃ cs0, completeFlush refOps refStoreFlushing = some cs0 ∧
      refStoreFlushing.ProcessWriteResp refOps = Outcome.ok cs0 ∧
      cs0.state = storeStateReady ∧ (∀ i, (cs0.chunks i).writing = false) ∧
      (cs0.chunks 0).appender = some { samples := [(3600005, 11)], offset := 16 } :=
  ⟨by decide,
    (ProcessWriteResp_flush_completion refOps refStoreFlushing (by decide)).imp
      (fun _ h => ⟨h.1, h.2.2.2.2.2.2.2.1 rfl, h.2.2.1, h.2.2.2.1, by
        obtain ⟨e, he, hm, -⟩ := h.2.2.2.2.1 0 (by decide)
        rw [hm]
        have : e = { samples := [(3600005, 11)], offset := 0 } := by
          have h2 : (refStoreFlushing.chunks 0).appender
              = some { samples := [(3600005, 11)], offset := 0 } := by decide
          rw [h2] at he
          exact (Option.some.inj he).symm
        subst this
        decide⟩)⟩

/-- C5 as stated fails on three inputs.  With `updMarker = 65544` on the
writing buffer, `MoveOffset` receives `uint16(65544) = 8`, so the flushed
offset of the appender ends at 8, not at the marker.  A buffer with
`writing = true` and no appender makes `ProcessWriteResp` panic.  And the
replay that follows the flush can move what the claim says stays put: a
pending sample ahead of the current chunk rotates into the buffer that had
`writing = false`, whose appender (flushed up to byte 16) is replaced by a
fresh one with offset 0. -/
theorem ProcessWriteResp_flush_completion_counterexample :
    ((refStoreBig.chunks 1).writing = true ∧ (refStoreBig.chunks 1).updMarker = 65544 ∧
      refStoreBig.ProcessWriteResp refOps =
        Outcome.ok { refStoreBig with
          state := storeStateReady
          chunks1 := { refStoreBig.chunks1 with
            appender := some { samples := [(7200000, 12), (10200000, 13)], offset := 8 }
            writing := false } }) ∧
    ((refStoreBig.setChunk 1 { refStoreBig.chunks1 with appender := none }).ProcessWriteResp refOps
      = Outcome.fault) ∧
    ((refStoreAhead.chunks 0).writing = false ∧
      (refStoreAhead.chunks 0).appender = some { samples := [(3600005, 11)], offset := 16 } ∧
      ∃ cs1, refStoreAhead.ProcessWriteResp refOps = Outcome.ok cs1 ∧
        (cs1.chunks 0).appender = some { samples := [(36000100, 5)], offset := 0 }) := by
  refine ⟨by decide, by decide, by decide, by decide, _, rfl, by decide⟩

/-- C6 (late window, drop side, P4) fails on the code.  The store `refStore`
is reached from `NewChunkStore` by fetching the state, getting the response
and appending at 3600005, 7200000 and 10200000: its current buffer is the
chunk of hour 2 with `lastT = 10200000`.  The time 3600010 is behind that
range and older than `lastT - 59min = 6660000`, yet `Append` does not drop the
sample: it appends it to the previous buffer (the chunk of hour 1) and raises
that buffer's `lastT`.  The window the code compares against is
`MAX_LATE_WRITE = 59 * 3600 * 1000` ms, which is 59 hours, not the 59 minutes
of its comment. -/
theorem Append_late_drop_fails :
    run refOps refMetric (NewChunkStore, refMC)
      [Op.getChunksState 3600005, Op.processGetResp respNotFound,
       Op.append 3600005 (Value.float64 11), Op.append 7200000 (Value.float64 12),
       Op.append 10200000 (Value.float64 13)] = some (refStore, refMCFetching) ∧
    refStore.state ≠ storeStateInit ∧ refStore.state ≠ storeStateGet ∧
    (refStore.chunks refStore.curChunk).inRange refOps 3600010 = some false ∧
    (refStore.chunks refStore.curChunk).isAhead refOps 3600010 = some false ∧
    (3600010 : Int) < (refStore.chunks refStore.curChunk).lastT - LATE_WINDOW_59MIN ∧
    refStore.Append refOps 3600010 (Value.float64 5) =
      Outcome.ok { refStore with
        chunks0 := { refStore.chunks0 with
          appender := some { samples := [(3600005, 11), (3600010, 5)], offset := 0 }
          lastT := 3600010 } } ∧
    refStore.Append refOps 3600010 (Value.float64 5) ≠ Outcome.ok refStore ∧
    MAX_LATE_WRITE = 60 * LATE_WINDOW_59MIN ∧ MAX_LATE_WRITE = 59 * (60 * 60 * 1000) := by
  decide

/-- C7 (late window, accept side, P4), amended: in a store whose state is
neither Init nor FetchingState, a sample `(t, v)` with `v` a float64 whose
time is neither in nor ahead of the current buffer's range, lies in the range
of the previous buffer, which holds an appender, and satisfies
`cur.lastT - 59min < t < cur.lastT`, where `cur.lastT` is an `int64` from
which the window of line 243 can be subtracted without overflow, makes
`Append` return success; the sample is appended to the previous buffer's
appender, `prev.lastT` becomes `max prev.lastT t`, and the current buffer,
`curChunk`, `pending`, `state` and `lastTid` are unchanged. -/
theorem Append_late_accept (ops : Collaborators Part Enc) (cs : chunkStore Part Enc)
    (t : Int) (x : Nat) (e : Enc)
    (hInit : cs.state ≠ storeStateInit) (hGet : cs.state ≠ storeStateGet)
    (hin : (cs.chunks cs.curChunk).inRange ops t = some false)
    (hahead : (cs.chunks cs.curChunk).isAhead ops t = some false)
    (hprev : (cs.chunks (cs.curChunk ^^^ 1)).inRange ops t = some true)
    (hlo : (cs.chunks cs.curChunk).lastT - LATE_WINDOW_59MIN < t)
    (hhi : t < (cs.chunks cs.curChunk).lastT)
    (hfit : -(2 : Int) ^ 63 ≤ (cs.chunks cs.curChunk).lastT - MAX_LATE_WRITE ∧
      (cs.chunks cs.curChunk).lastT < 2 ^ 63)
    (henc : (cs.chunks (cs.curChunk ^^^ 1)).appender = some e) :
    ∃ cs1, cs.Append ops t (Value.float64 x) = Outcome.ok cs1 ∧
      cs1.chunks (cs.curChunk ^^^ 1) =
        { cs.chunks (cs.curChunk ^^^ 1) with
          appender := some (ops.Append e t x)
          lastT := max (cs.chunks (cs.curChunk ^^^ 1)).lastT t } ∧
      cs1.chunks cs.curChunk = cs.chunks cs.curChunk ∧
      cs1.curChunk = cs.curChunk ∧ cs1.pending = cs.pending ∧
      cs1.state = cs.state ∧ cs1.lastTid = cs.lastTid := by
  have hmax : (if t > (cs.chunks (cs.curChunk ^^^ 1)).lastT then t
      else (cs.chunks (cs.curChunk ^^^ 1)).lastT)
      = max (cs.chunks (cs.curChunk ^^^ 1)).lastT t := by
    rw [max_def]; split_ifs <;> omega
  have h1 : LATE_WINDOW_59MIN = 3540000 := by decide
  have h2 : MAX_LATE_WRITE = 212400000 := by decide
  have hwin : wrapInt64 ((cs.chunks cs.curChunk).lastT - MAX_LATE_WRITE) < t := by
    rw [wrapInt64_of_fits _ hfit.1 (by omega)]
    omega
  refine ⟨cs.setChunk (cs.curChunk ^^^ 1)
    { cs.chunks (cs.curChunk ^^^ 1) with
      appender := some (ops.Append e t x)
      lastT := max (cs.chunks (cs.curChunk ^^^ 1)).lastT t }, ?_, ?_, ?_, ?_, ?_, ?_, ?_⟩
  · simp [chunkStore.Append, hInit, hGet, hin, hahead, hprev, hwin,
      attrAppender.appendAttr, henc, hmax]
  · exact chunks_setChunk_same _ _ _
  · exact chunks_setChunk_flip2 _ _ _
  · exact setChunk_curChunk _ _ _
  · exact setChunk_pending _ _ _
  · exact setChunk_state _ _ _
  · exact setChunk_lastTid _ _ _

theorem Append_late_accept_witness :
    ∃ cs1, refStoreLate.Append refOps 3000000 (Value.float64 9) = Outcome.ok cs1 ∧
      cs1.chunks (refStoreLate.curChunk ^^^ 1) =
        { refStoreLate.chunks (refStoreLate.curChunk ^^^ 1) with
          appender := some (refOps.Append { samples := [(1000000, 20)], offset := 0 } 3000000 9)
          lastT := max (refStoreLate.chunks (refStoreLate.curChunk ^^^ 1)).lastT 3000000 } ∧
      cs1.chunks refStoreLate.curChunk = refStoreLate.chunks refStoreLate.curChunk ∧
      cs1.curChunk = refStoreLate.curChunk ∧ cs1.pending = refStoreLate.pending ∧
      cs1.state = refStoreLate.state ∧ cs1.lastTid = refStoreLate.lastTid :=
  Append_late_accept refOps refStoreLate 3000000 9 { samples := [(1000000, 20)], offset := 0 }
    (by decide) (by decide) (by decide) (by decide) (by decide) (by decide) (by decide)
    (by decide) (by decide)

/-- C7 as stated fails on three inputs.  With the time 3000000 in the previous
buffer's range and within 59 minutes of `cur.lastT = 3900000`, a value that is
not a float64, and a previous buffer without an appender, each make `Append`
panic instead of returning success.  And on `refStoreFloor`, whose
`cur.lastT` is `-2^63 + 3601000`, the subtraction of line 243 wraps around to
a large positive number, so that the time `-2^63 + 3599900`, which is within
59 minutes of `cur.lastT` and in the previous buffer's range, is dropped:
`Append` returns success and leaves the store as it was. -/
theorem Append_late_accept_counterexample :
    ((refStoreLate.chunks refStoreLate.curChunk).inRange refOps 3000000 = some false ∧
      (refStoreLate.chunks refStoreLate.curChunk).isAhead refOps 3000000 = some false ∧
      (refStoreLate.chunks (refStoreLate.curChunk ^^^ 1)).inRange refOps 3000000 = some true ∧
      (refStoreLate.chunks refStoreLate.curChunk).lastT - LATE_WINDOW_59MIN ≤ 3000000 ∧
      (3000000 : Int) < (refStoreLate.chunks refStoreLate.curChunk).lastT) ∧
    refStoreLate.state ≠ storeStateInit ∧ refStoreLate.state ≠ storeStateGet ∧
    refStoreLate.Append refOps 3000000 (Value.other "string") = Outcome.fault ∧
    (refStoreLate.setChunk 1 { refStoreLate.chunks1 with appender := none }).Append refOps
      3000000 (Value.float64 9) = Outcome.fault ∧
    (refStoreFloor.state = storeStateReady ∧
      (refStoreFloor.chunks refStoreFloor.curChunk).inRange refOps (-2 ^ 63 + 3599900)
        = some false ∧
      (refStoreFloor.chunks refStoreFloor.curChunk).isAhead refOps (-2 ^ 63 + 3599900)
        = some false ∧
      (refStoreFloor.chunks (refStoreFloor.curChunk ^^^ 1)).inRange refOps (-2 ^ 63 + 3599900)
        = some true ∧
      (refStoreFloor.chunks refStoreFloor.curChunk).lastT - LATE_WINDOW_59MIN
        ≤ -2 ^ 63 + 3599900 ∧
      (-2 ^ 63 + 3599900 : Int) < (refStoreFloor.chunks refStoreFloor.curChunk).lastT ∧
      (refStoreFloor.chunks refStoreFloor.curChunk).lastT - MAX_LATE_WRITE < -2 ^ 63 ∧
      wrapInt64 ((refStoreFloor.chunks refStoreFloor.curChunk).lastT - MAX_LATE_WRITE)
        = 2 ^ 63 - 208799000 ∧
      refStoreFloor.Append refOps (-2 ^ 63 + 3599900) (Value.float64 9)
        = Outcome.ok refStoreFloor) := by
  refine ⟨by decide, by decide, by decide, by decide, by decide,
    by decide, by decide, by decide, by decide, by decide, by decide, by decide, by decide,
    by decide⟩

/-- C9 (range append, P1), amended: in a store whose state is neither Init nor
FetchingState and whose current buffer holds an appender, a sample `(t, v)`
with `v` a float64 and `t` inside the current buffer's chunk range makes
`Append` return success; the sample is appended to the current buffer's
appender, `lastT` of the current buffer becomes `max lastT t`, and nothing
else changes: the current buffer's `partition`, `updMarker`, `updCount`,
`chunkMint` and `writing`, the other buffer, `curChunk`, `pending`, `state`
and `lastTid` are as before. -/
theorem Append_inRange (ops : Collaborators Part Enc) (cs : chunkStore Part Enc)
    (t : Int) (x : Nat) (e : Enc)
    (hInit : cs.state ≠ storeStateInit) (hGet : cs.state ≠ storeStateGet)
    (hin : (cs.chunks cs.curChunk).inRange ops t = some true)
    (henc : (cs.chunks cs.curChunk).appender = some e) :
    ∃ cs1, cs.Append ops t (Value.float64 x) = Outcome.ok cs1 ∧
      cs1.chunks cs.curChunk =
        { cs.chunks cs.curChunk with
          appender := some (ops.Append e t x)
          lastT := max (cs.chunks cs.curChunk).lastT t } ∧
      cs1.chunks (cs.curChunk ^^^ 1) = cs.chunks (cs.curChunk ^^^ 1) ∧
      cs1.curChunk = cs.curChunk ∧ cs1.pending = cs.pending ∧
      cs1.state = cs.state ∧ cs1.lastTid = cs.lastTid := by
  have hmax : (if t > (cs.chunks cs.curChunk).lastT then t else (cs.chunks cs.curChunk).lastT)
      = max (cs.chunks cs.curChunk).lastT t := by
    rw [max_def]; split_ifs <;> omega
  refine ⟨cs.setChunk cs.curChunk
    { cs.chunks cs.curChunk with
      appender := some (ops.Append e t x)
      lastT := max (cs.chunks cs.curChunk).lastT t }, ?_, ?_, ?_, ?_, ?_, ?_, ?_⟩
  · simp [chunkStore.Append, hInit, hGet, hin, attrAppender.appendAttr, henc, hmax]
  · exact chunks_setChunk_same _ _ _
  · exact chunks_setChunk_flip _ _ _
  · exact setChunk_curChunk _ _ _
  · exact setChunk_pending _ _ _
  · exact setChunk_state _ _ _
  · exact setChunk_lastTid _ _ _

theorem Append_inRange_witness :
    ∃ cs1, refStore.Append refOps 7200100 (Value.float64 7) = Outcome.ok cs1 ∧
      cs1.chunks refStore.curChunk =
        { refStore.chunks refStore.curChunk with
          appender := some (refOps.Append
            { samples := [(7200000, 12), (10200000, 13)], offset := 0 } 7200100 7)
          lastT := max (refStore.chunks refStore.curChunk).lastT 7200100 } ∧
      cs1.chunks (refStore.curChunk ^^^ 1) = refStore.chunks (refStore.curChunk ^^^ 1) ∧
      cs1.curChunk = refStore.curChunk ∧ cs1.pending = refStore.pending ∧
      cs1.state = refStore.state ∧ cs1.lastTid = refStore.lastTid :=
  Append_inRange refOps refStore 7200100 7 { samples := [(7200000, 12), (10200000, 13)], offset := 0 }
    (by decide) (by decide) (by decide) (by decide)

/-- C9 as stated fails on two inputs.  A sample whose value is not a float64
fails the assertion `v.(float64)` of `appendAttr`; and a current buffer that
is bound to a partition but holds no appender (what `GetChunksState` leaves
when `Appender()` fails, its error being dropped) makes `appendAttr` call
through `nil`.  In both the time is inside the current range and the call
panics instead of returning success. -/
theorem Append_inRange_counterexample :
    (refStore.state ≠ storeStateInit ∧ refStore.state ≠ storeStateGet ∧
      (refStore.chunks refStore.curChunk).inRange refOps 7200100 = some true ∧
      refStore.Append refOps 7200100 (Value.other "string") = Outcome.fault) ∧
    ((refStore.setChunk 1 { refStore.chunks1 with appender := none }).state ≠ storeStateInit ∧
      (refStore.setChunk 1 { refStore.chunks1 with appender := none }).state ≠ storeStateGet ∧
      ((refStore.setChunk 1 { refStore.chunks1 with appender := none }).chunks 1).inRange
        refOps 7200100 = some true ∧
      (refStore.setChunk 1 { refStore.chunks1 with appender := none }).Append refOps 7200100
        (Value.float64 7) = Outcome.fault) := by
  decide

/-- C10 (restore buffering, P5), amended: for a store in state Init or
FetchingState, any list of samples, and a response that either carries an
error or is a GetItem output whose `_maxtime` is absent or an int while
buffer 0 is bound to a partition: every `Append` of the list returns success
and only extends `pending`, in arrival order; `ProcessGetResp` then returns,
and in the store it leaves `pending` is the old `pending` followed by the
samples, both buffers and `curChunk` are as before the first `Append`, and
the state is Ready. -/
theorem restore_buffering (ops : Collaborators Part Enc) (cs : chunkStore Part Enc)
    (samples : List pendingData) (resp : Response)
    (hst : cs.state = storeStateInit ∨ cs.state = storeStateGet)
    (hresp : resp.Error ≠ none ∨
      (cs.chunks0.partition ≠ none ∧
        ∃ item, resp.Output = Output.getItemOutput item ∧
          ∀ dyn, item.lookup "_maxtime" ≠ some (AttrValue.other dyn))) :
    ∃ cs1 cs2, appendEach ops cs samples = some cs1 ∧
      cs1 = { cs with pending := cs.pending ++ samples } ∧
      cs1.ProcessGetResp ops resp = Outcome.ok cs2 ∧
      cs2.pending = cs.pending ++ samples ∧
      cs2.chunks0 = cs.chunks0 ∧ cs2.chunks1 = cs.chunks1 ∧
      cs2.curChunk = cs.curChunk ∧ cs2.state = storeStateReady := by
  have hE := appendEach_pending ops samples cs hst
  suffices h : ∃ cs2,
      chunkStore.ProcessGetResp ops { cs with pending := cs.pending ++ samples } resp
        = Outcome.ok cs2 ∧
      cs2.pending = cs.pending ++ samples ∧
      cs2.chunks0 = cs.chunks0 ∧ cs2.chunks1 = cs.chunks1 ∧
      cs2.curChunk = cs.curChunk ∧ cs2.state = storeStateReady by
    obtain ⟨cs2, h⟩ := h
    exact ⟨_, cs2, hE, rfl, h⟩
  unfold chunkStore.ProcessGetResp
  cases hE : resp.Error with
  | some e => exact ⟨_, rfl, rfl, rfl, rfl, rfl, rfl⟩
  | none =>
    rcases hresp with h | ⟨hp, item, hO, hI⟩
    · exact absurd hE h
    · cases hpart : cs.chunks0.partition with
      | none => exact absurd hpart hp
      | some p =>
        simp only [hO, hpart]
        cases hL : item.lookup "_maxtime" with
        | none => exact ⟨_, rfl, rfl, rfl, rfl, rfl, rfl⟩
        | some a =>
          cases a with
          | int n => exact ⟨_, rfl, rfl, rfl, rfl, rfl, rfl⟩
          | other dyn => exact absurd hL (hI dyn)

theorem restore_buffering_witness :
    ∃ cs1 cs2,
      appendEach refOps refStoreFetching
        [{ t := 5, v := Value.float64 101 }, { t := 3, v := Value.other "x" }] = some cs1 ∧
      cs1 = { refStoreFetching with
        pending := refStoreFetching.pending ++
          [{ t := 5, v := Value.float64 101 }, { t := 3, v := Value.other "x" }] } ∧
      cs1.ProcessGetResp refOps
        { Error := none, Output := Output.getItemOutput [("_maxtime", AttrValue.int 10)] }
        = Outcome.ok cs2 ∧
      cs2.pending = refStoreFetching.pending ++
          [{ t := 5, v := Value.float64 101 }, { t := 3, v := Value.other "x" }] ∧
      cs2.chunks0 = refStoreFetching.chunks0 ∧ cs2.chunks1 = refStoreFetching.chunks1 ∧
      cs2.curChunk = refStoreFetching.curChunk ∧ cs2.state = storeStateReady :=
  restore_buffering refOps refStoreFetching
    [{ t := 5, v := Value.float64 101 }, { t := 3, v := Value.other "x" }]
    { Error := none, Output := Output.getItemOutput [("_maxtime", AttrValue.int 10)] }
    (by decide)
    (Or.inr ⟨by decide, _, rfl, by intro dyn; simp [List.lookup]⟩)

/-- C10 as stated fails on three inputs.  A store fresh from `NewChunkStore`
(state Init, buffer 0 bound to no partition) queues the sample, and
`ProcessGetResp` with a successful response then panics on
`cs.chunks[0].partition.GetId()`.  With buffer 0 bound, a successful response
whose `_maxtime` is not an int fails the assertion `val.(int)`, and one whose
output is not a GetItem output fails `resp.Output.(*v3io.GetItemOutput)`. -/
theorem restore_buffering_counterexample :
    ((NewChunkStore : chunkStore RefPart RefEnc).state = storeStateInit ∧
      appendEach refOps (NewChunkStore : chunkStore RefPart RefEnc)
        [{ t := 5, v := Value.float64 101 }] =
        some { (NewChunkStore : chunkStore RefPart RefEnc) with
          pending := [{ t := 5, v := Value.float64 101 }] } ∧
      chunkStore.ProcessGetResp refOps
        { (NewChunkStore : chunkStore RefPart RefEnc) with
          pending := [{ t := 5, v := Value.float64 101 }] }
        { Error := none, Output := Output.getItemOutput [("_maxtime", AttrValue.int 10)] }
        = Outcome.fault) ∧
    (refStoreFetching.state = storeStateGet ∧
      refStoreFetching.ProcessGetResp refOps
        { Error := none, Output := Output.getItemOutput [("_maxtime", AttrValue.other "string")] }
        = Outcome.fault ∧
      refStoreFetching.ProcessGetResp refOps
        { Error := none, Output := Output.other "PutItemOutput" } = Outcome.fault) := by
  decide

/-- C18 fails on the code: a too-old sample before the first rotation makes
`Append` call through the unbound partition of the other buffer.  The store
`refStoreUnrotated` is what `GetChunksState` at time 7200000 leaves, ready at
once when old data is overridden and after `ProcessGetResp` otherwise; its
second buffer has no partition and no appender.  The time 3600010 is neither
in nor ahead of the current range, and `Append` panics in `prev.inRange(t)`
(line 243) instead of returning success. -/
theorem Append_too_old_unrotated_faults :
    run refOps refMetric (NewChunkStore, refMCOverride) [Op.getChunksState 7200000]
      = some (refStoreUnrotated, refMCOverride) ∧
    run refOps refMetric (NewChunkStore, refMC)
      [Op.getChunksState 7200000, Op.processGetResp respNotFound]
      = some (refStoreUnrotated, refMCFetching) ∧
    refStoreUnrotated.state = storeStateReady ∧
    (refStoreUnrotated.chunks (refStoreUnrotated.curChunk ^^^ 1)).partition = none ∧
    (refStoreUnrotated.chunks (refStoreUnrotated.curChunk ^^^ 1)).appender = none ∧
    (refStoreUnrotated.chunks refStoreUnrotated.curChunk).inRange refOps 3600010 = some false ∧
    (refStoreUnrotated.chunks refStoreUnrotated.curChunk).isAhead refOps 3600010 = some false ∧
    (refStoreUnrotated.chunks (refStoreUnrotated.curChunk ^^^ 1)).inRange refOps 3600010 = none ∧
    refStoreUnrotated.Append refOps 3600010 (Value.float64 5) = Outcome.fault := by
  decide

/-- C19 fails on the code: the fragments of the two buffers are concatenated
with nothing between them.  The store `refStoreDay` is reached, with one
partition per day, by fetching the state at 90000000, getting the response and
appending at 90000000 and 93600000; both buffers belong to partition 1 and
hold an unflushed sample.  `WriteChunks` issues one request whose expression
reads `_maxtime=93600000_v1=init_array(1024,'int'); ` where the first fragment
ends and the second begins: no "; " follows the `_maxtime` assignment. -/
theorem WriteChunks_fragments_not_separated :
    run refOpsDay refMetric (NewChunkStore, refMC)
      [Op.getChunksState 90000000, Op.processGetResp respNotFound,
       Op.append 90000000 (Value.float64 11), Op.append 93600000 (Value.float64 12)]
      = some (refStoreDay, refMCFetching) ∧
    chunkbuf2Expr refOpsDay 0 1 (refBytes { samples := [(93600000, 12)], offset := 0 })
        refStoreDay.chunks1
      = some "_v2=init_array(1024,'int'); _meta[2]=1; _v2[0]=93600000; _v2[1]=12; _maxtime=93600000" ∧
    chunkbuf2Expr refOpsDay 0 1 (refBytes { samples := [(90000000, 11)], offset := 0 })
        refStoreDay.chunks0
      = some "_v1=init_array(1024,'int'); _meta[1]=1; _v1[0]=90000000; _v1[1]=11; _maxtime=90000000" ∧
    refStoreDay.WriteChunks refOpsDay refMCFetching refMetric =
      Outcome.ok
        ({ refStoreDay with
            state := storeStateUpdate
            lastTid := 1
            chunks0 := { refStoreDay.chunks0 with updMarker := 8, updCount := 1, writing := true }
            chunks1 := { refStoreDay.chunks1 with updMarker := 8, updCount := 1, writing := true } },
         { refMCFetching with
            requestsMap := (2, refMetric) :: refMCFetching.requestsMap
            issued := refMCFetching.issued ++
              [Request.updateItem
                { Path := "/tsdb/cpu.77"
                  Expression :=
                    "_name='cpu'; host='a'; _lset='cpu.key'; _meta=init_array(24,'int'); " ++
                    "_v2=init_array(1024,'int'); _meta[2]=1; _v2[0]=93600000; _v2[1]=12; " ++
                    "_maxtime=93600000" ++
                    "_v1=init_array(1024,'int'); _meta[1]=1; _v1[0]=90000000; _v1[1]=11; " ++
                    "_maxtime=90000000" }] }) := by
  refine ⟨by decide, by rfl, by rfl, by rfl⟩

/-- C20 fails on the code: a rotation re-initializes the other buffer whenever
it is not writing, also when it holds samples that were never flushed.  The
store `refStoreUnflushed` is reached from `NewChunkStore` by fetching the
state, getting the response and appending at 3600005, 3600006 and 7200000; its
previous buffer holds two unflushed samples and `UpdatesBehind` is 3.
`Append` at 10800000 returns success and rotates into that buffer: the two
samples are gone and `UpdatesBehind` is 2, neither 3 nor 4. -/
theorem Append_rotation_discards_unflushed :
    run refOps refMetric (NewChunkStore, refMC)
      [Op.getChunksState 3600005, Op.processGetResp respNotFound,
       Op.append 3600005 (Value.float64 11), Op.append 3600006 (Value.float64 12),
       Op.append 7200000 (Value.float64 13)] = some (refStoreUnflushed, refMCFetching) ∧
    refStoreUnflushed.state ≠ storeStateInit ∧ refStoreUnflushed.state ≠ storeStateGet ∧
    refOps.NumSamples { samples := [], offset := 0 } = 0 ∧
    refStoreUnflushed.UpdatesBehind refOps = 3 ∧
    refStoreUnflushed.Append refOps 10800000 (Value.float64 14) =
      Outcome.ok { refStoreUnflushed with
        curChunk := 0
        chunks0 := refBuf 3 [(10800000, 14)] 10800000 } ∧
    chunkStore.UpdatesBehind refOps
      { refStoreUnflushed with
        curChunk := 0
        chunks0 := refBuf 3 [(10800000, 14)] 10800000 } = 2 := by
  decide

/-- C15 (DeltaCodec output shape): for every `offsetByte ≥ 0`, metadata word,
byte slice and buffer bound to a partition `p`, `chunkbuf2Expr` returns
exactly the fragment of the specification: with `idx = p.TimeToChunkId(chunkMint)`
and `attr = p.ChunkID2Attr("v", idx)`, the clause
`<attr>=init_array(1024,'int'); ` if and only if `offsetByte = 0`, then
`_meta[<idx>]=<meta>; `, then for the k-th word `w` of `ToUint64(bytes)` the
clause `<attr>[offsetByte/8 + k]=<int64(w)>; ` in increasing k, and finally
`_maxtime=<lastT>`. -/
theorem chunkbuf2Expr_shape (ops : Collaborators Part Enc) (offsetByte : Int) (meta : Nat)
    (bytes : List Nat) (app : attrAppender Part Enc) (p : Part)
    (hoff : 0 ≤ offsetByte) (hp : app.partition = some p) :
    chunkbuf2Expr ops offsetByte meta bytes app =
      some (deltaCodecSpec (ops.ChunkID2Attr p "v" (ops.TimeToChunkId p app.chunkMint))
        (ops.TimeToChunkId p app.chunkMint) offsetByte meta (ops.ToUint64 bytes) app.lastT) := by
  have hdiv : Int.tdiv offsetByte 8 = offsetByte / 8 := Int.tdiv_eq_ediv hoff (by decide)
  have hloop := chunkbuf2ExprLoop_eq (ops.ChunkID2Attr p "v" (ops.TimeToChunkId p app.chunkMint))
    (offsetByte / 8) (ops.ToUint64 bytes) 0
  simp only [Nat.cast_zero, add_zero] at hloop
  simp only [chunkbuf2Expr, hp, hdiv, hloop, deltaCodecSpec, List.enum, concatClauses_append,
    concatClauses, String.append_empty, String.empty_append, String.append_assoc]
  by_cases h0 : offsetByte = 0 <;>
    simp [h0, concatClauses, String.append_assoc, String.empty_append]

theorem chunkbuf2Expr_shape_witness :
    chunkbuf2Expr refOps 16 2 (refBytes { samples := [(7200000, 12)], offset := 0 })
        refStore.chunks1
      = some (deltaCodecSpec "_v2" 2 16 2 [7200000, 12] 10200000) ∧
    deltaCodecSpec "_v2" 2 16 2 [7200000, 12] 10200000
      = "_meta[2]=2; _v2[2]=7200000; _v2[3]=12; _maxtime=10200000" ∧
    deltaCodecSpec "_v2" 2 0 2 [2 ^ 64 - 1] 10200000
      = "_v2=init_array(1024,'int'); _meta[2]=2; _v2[0]=-1; _maxtime=10200000" :=
  ⟨chunkbuf2Expr_shape refOps 16 2 (refBytes { samples := [(7200000, 12)], offset := 0 })
      refStore.chunks1 { id := 2 } (by decide) rfl,
    by rfl, by rfl⟩

/-- C14 (flush marker), amended: a round of the loop of `WriteChunks` that
flushes a buffer whose appender reports an unflushed range of `n ≥ 1` bytes
starting at byte `o ≥ 0` sets `updMarker` to `((o + n - 1) / 8) * 8`.  That is
the greatest multiple of 8 that is `≤ o + n - 1`, the start of the 8-byte word
holding the last byte of the range; it lies 8 below the least multiple of 8
that is `≥ o + n`. -/
theorem writeChunksRound_marker (ops : Collaborators Part Enc) (i : Fin 2)
    (st : writeLoop Part Enc) (part : Part) (app : Enc) (meta : Nat) (o : Int) (b : List Nat)
    (hp : (st.cs.chunks (st.cs.curChunk ^^^ i)).partition = some part)
    (ha : (st.cs.chunks (st.cs.curChunk ^^^ i)).appender = some app)
    (ht : st.tableId = -1 ∨ st.tableId = ops.GetId part)
    (hs : ops.NumSamples app > (st.cs.chunks (st.cs.curChunk ^^^ i)).updCount)
    (hbuf : ops.GetChunkBuffer app = (meta, o, b))
    (ho : 0 ≤ o) (hn : 1 ≤ b.length) :
    ∃ st1, writeChunksRound ops i st = some st1 ∧
      (st1.cs.chunks (st.cs.curChunk ^^^ i)).updMarker = (o + (b.length : Int) - 1) / 8 * 8 ∧
      (8 : Int) ∣ (st1.cs.chunks (st.cs.curChunk ^^^ i)).updMarker ∧
      (st1.cs.chunks (st.cs.curChunk ^^^ i)).updMarker ≤ o + (b.length : Int) - 1 ∧
      (∀ r : Int, 8 ∣ r → r ≤ o + (b.length : Int) - 1 →
        r ≤ (st1.cs.chunks (st.cs.curChunk ^^^ i)).updMarker) ∧
      o + (b.length : Int) ≤ (st1.cs.chunks (st.cs.curChunk ^^^ i)).updMarker + 8 ∧
      (∀ r : Int, 8 ∣ r → o + (b.length : Int) ≤ r →
        (st1.cs.chunks (st.cs.curChunk ^^^ i)).updMarker + 8 ≤ r) := by
  have hq : (st.cs.chunks (st.cs.curChunk ^^^ i)).unflushedId ops = some (ops.GetId part) := by
    simp [attrAppender.unflushedId, hp, ha, hs]
  have hm : ((st.cs.flushAt ops (st.cs.curChunk ^^^ i) (ops.GetId part)).chunks
      (st.cs.curChunk ^^^ i)).updMarker = (o + (b.length : Int) - 1) / 8 * 8 := by
    rw [flushAt_chunks_same]
    have hnn : (0 : Int) ≤ o + (b.length : Int) - 1 := by omega
    simp [attrAppender.markFlushed, ha, hbuf, Int.tdiv_eq_ediv hnn (by decide : (0 : Int) ≤ 8)]
  refine ⟨_, writeChunksRound_flushAt ops i st _ hq ht, hm, ?_, ?_, ?_, ?_, ?_⟩
  all_goals simp only [hm]
  · exact Dvd.intro_left _ rfl
  · omega
  · intro r hr; omega
  · omega
  · intro r hr; omega

theorem writeChunksRound_marker_witness :
    ∃ st1, writeChunksRound refOps 0
        { cs := refStoreFirst, tableId := -1, expr := "", notInitialized := false } = some st1 ∧
      (st1.cs.chunks 0).updMarker = 8 ∧ (8 : Int) ≤ 0 + 16 - 1 ∧ (0 : Int) + 16 ≤ 8 + 8 :=
  (writeChunksRound_marker refOps 0
      { cs := refStoreFirst, tableId := -1, expr := "", notInitialized := false }
      { id := 1 } { samples := [(3600010, 1)], offset := 0 } 1 0
      (refBytes { samples := [(3600010, 1)], offset := 0 })
      rfl rfl (Or.inl rfl) (by decide) rfl (by decide) (by decide)).imp
    (fun _ h => ⟨h.1, h.2.1, by decide, by decide⟩)

/-- C14 as stated fails on the code: the marker is not rounded up.  The store
`refStoreFirst` holds one sample, and its appender reports the unflushed range
of 16 bytes starting at byte 0.  `WriteChunks` sets `updMarker = 8`, while the
least multiple of 8 that is `≥ 0 + 16` is 16. -/
theorem writeChunks_marker_counterexample :
    refOps.GetChunkBuffer { samples := [(3600010, 1)], offset := 0 }
      = (1, 0, refBytes { samples := [(3600010, 1)], offset := 0 }) ∧
    (refBytes { samples := [(3600010, 1)], offset := 0 }).length = 16 ∧
    refStoreFirst.WriteChunks refOps refMCFetching refMetric =
      Outcome.ok
        ({ refStoreFirst with
            state := storeStateUpdate
            lastTid := 1
            chunks0 := { refStoreFirst.chunks0 with updMarker := 8, updCount := 1, writing := true } },
         { refMCFetching with
            requestsMap := (2, refMetric) :: refMCFetching.requestsMap
            issued := refMCFetching.issued ++
              [Request.updateItem
                { Path := "/tsdb/cpu.77"
                  Expression :=
                    "_name='cpu'; host='a'; _lset='cpu.key'; _meta=init_array(24,'int'); " ++
                    "_v1=init_array(1024,'int'); _meta[1]=1; _v1[0]=3600010; _v1[1]=1; " ++
                    "_maxtime=3600010" }] }) ∧
    (8 : Int) < 0 + 16 ∧ (8 : Int) ∣ 16 ∧ (0 : Int) + 16 ≤ 16 := by
  refine ⟨by rfl, by decide, by rfl, by decide, by decide, by decide⟩

/-- C12 (single-partition flush, P8), amended: for a store not in
FetchingState whose current and previous buffers both hold unflushed samples,
under partition ids `p` and `q` with `p ≠ q` and `p ≠ -1`, `WriteChunks` hands
the container one request, whose expression is the fragment of the current
buffer alone (after the initialization clauses when `p > lastTid`).  When the
container accepts it, the call returns success with that one request issued,
the current buffer has `writing = true` and `updCount` equal to its sample
count, and the previous buffer is exactly as before: its `writing` flag,
`updCount` and `updMarker` are unchanged.  When the container refuses it, the
call returns the container's error and no request is issued. -/
theorem WriteChunks_single_partition (ops : Collaborators Part Enc) (cs : chunkStore Part Enc)
    (mc : MetricsCache) (metric : MetricState) (p q : Int)
    (hs : cs.state ≠ storeStateGet)
    (hc : (cs.chunks cs.curChunk).unflushedId ops = some p)
    (hp : (cs.chunks (cs.curChunk ^^^ 1)).unflushedId ops = some q)
    (hpq : p ≠ q) (hsent : p ≠ -1) :
    ∃ app e,
      (cs.chunks cs.curChunk).appender = some app ∧
      chunkbuf2Expr ops (ops.GetChunkBuffer app).2.1 (ops.GetChunkBuffer app).1
        (ops.GetChunkBuffer app).2.2 (cs.chunks cs.curChunk) = some e ∧
      (match ops.UpdateItem
          { Path := GetMetricPath metric mc.cfg.Path ""
            Expression := (if p > cs.lastTid then initClauses metric else "") ++ e } with
        | Except.error err =>
            ∃ cs1, cs.WriteChunks ops mc metric = Outcome.err err (cs1, mc)
        | Except.ok id =>
            ∃ cs1,
              cs.WriteChunks ops mc metric =
                Outcome.ok
                  (cs1,
                   { mc with
                     requestsMap := (id, metric) :: mc.requestsMap
                     issued := mc.issued ++
                       [Request.updateItem
                         { Path := GetMetricPath metric mc.cfg.Path ""
                           Expression :=
                             (if p > cs.lastTid then initClauses metric else "") ++ e }] }) ∧
              (cs1.chunks cs.curChunk).writing = true ∧
              (cs1.chunks cs.curChunk).updCount = ops.NumSamples app ∧
              cs1.chunks (cs.curChunk ^^^ 1) = cs.chunks (cs.curChunk ^^^ 1) ∧
              cs1.curChunk = cs.curChunk) := by
  obtain ⟨part, app, hpart, happ, -, -⟩ := unflushedId_some ops _ p hc
  have hl := writeLoop_some_skip ops cs p hc (Or.inr ⟨q, hp, hsent, hpq⟩)
  have hw := WriteChunks_eq_finish ops cs mc metric _ hs hl
  have hfrag : ∃ e, chunkbuf2Expr ops (ops.GetChunkBuffer app).2.1 (ops.GetChunkBuffer app).1
      (ops.GetChunkBuffer app).2.2 (cs.chunks cs.curChunk) = some e ∧
      (cs.chunks cs.curChunk).fragment ops = e := by
    simp [attrAppender.fragment, happ, chunkbuf2Expr, hpart]
  obtain ⟨e, he, hfe⟩ := hfrag
  refine ⟨app, e, happ, he, ?_⟩
  rw [hw]
  simp only [writeChunksFinish, hsent, if_false, hfe, decide_eq_true_eq]
  cases hu : ops.UpdateItem
      { Path := GetMetricPath metric mc.cfg.Path ""
        Expression := (if p > cs.lastTid then initClauses metric else "") ++ e } with
  | error err => exact ⟨_, rfl⟩
  | ok id =>
    refine ⟨_, rfl, ?_, ?_, flushAt_chunks_flip _ _ _ _, flushAt_curChunk _ _ _ _⟩
    · rw [flushAt_chunks_same]; simp [attrAppender.markFlushed, happ]
    · rw [flushAt_chunks_same]; simp [attrAppender.markFlushed, happ]

theorem WriteChunks_single_partition_witness :
    refStore.state ≠ storeStateGet ∧
    (refStore.chunks refStore.curChunk).unflushedId refOps = some 2 ∧
    (refStore.chunks (refStore.curChunk ^^^ 1)).unflushedId refOps = some 1 ∧
    ∃ (app : RefEnc) (e : String),
      (refStore.chunks refStore.curChunk).appender = some app ∧
      chunkbuf2Expr refOps (refOps.GetChunkBuffer app).2.1 (refOps.GetChunkBuffer app).1
        (refOps.GetChunkBuffer app).2.2 (refStore.chunks refStore.curChunk) = some e ∧
      (match refOps.UpdateItem
          { Path := GetMetricPath refMetric refMCFetching.cfg.Path ""
            Expression := (if (2 : Int) > refStore.lastTid then initClauses refMetric else "") ++
              e } with
        | Except.error _ => False
        | Except.ok _ =>
            ∃ cs1 mc1,
              refStore.WriteChunks refOps refMCFetching refMetric = Outcome.ok (cs1, mc1) ∧
              (cs1.chunks refStore.curChunk).writing = true ∧
              cs1.chunks (refStore.curChunk ^^^ 1)
                = refStore.chunks (refStore.curChunk ^^^ 1)) :=
  ⟨by decide, by decide, by decide,
    (WriteChunks_single_partition refOps refStore refMCFetching refMetric 2 1
      (by decide) (by decide) (by decide) (by decide) (by decide)).imp
      (fun _ h => h.imp (fun _ h => ⟨h.1, h.2.1,
        h.2.2.imp (fun _ h => ⟨_, h.1, h.2.1, h.2.2.2.1⟩)⟩))⟩

/-- C12 as stated fails on two inputs.  In `refStoreInFlight`, reached by
flushing the first chunk, rotating and appending a late sample before the
response arrives, the previous buffer holds unflushed samples and already has
`writing = true`: `WriteChunks` flushes the current buffer of partition 2 and
leaves the previous one as it is, writing included.  And with a container
that refuses the update no request is issued at all. -/
theorem WriteChunks_single_partition_counterexample :
    (run refOps refMetric (NewChunkStore, refMC)
        [Op.getChunksState 3600005, Op.processGetResp respNotFound,
         Op.append 3600005 (Value.float64 11), Op.writeChunks,
         Op.append 7200000 (Value.float64 12), Op.append 3600006 (Value.float64 13)]
      = some (refStoreInFlight,
          { refMCFetching with
            requestsMap := (2, refMetric) :: refMCFetching.requestsMap
            issued := refMCFetching.issued ++
              [Request.updateItem
                { Path := "/tsdb/cpu.77"
                  Expression :=
                    "_name='cpu'; host='a'; _lset='cpu.key'; _meta=init_array(24,'int'); " ++
                    "_v1=init_array(1024,'int'); _meta[1]=1; _v1[0]=3600005; _v1[1]=11; " ++
                    "_maxtime=3600005" }] }) ∧
      refStoreInFlight.state ≠ storeStateGet ∧
      (refStoreInFlight.chunks refStoreInFlight.curChunk).unflushedId refOps = some 2 ∧
      (refStoreInFlight.chunks (refStoreInFlight.curChunk ^^^ 1)).unflushedId refOps = some 1 ∧
      ∃ b, refStoreInFlight.WriteChunks refOps refMCFetching refMetric = Outcome.ok b ∧
        b.2.issued.length = refMCFetching.issued.length + 1 ∧
        (b.1.chunks (refStoreInFlight.curChunk ^^^ 1)).writing = true) ∧
    (refStore.state ≠ storeStateGet ∧
      (refStore.chunks refStore.curChunk).unflushedId refOpsDown = some 2 ∧
      (refStore.chunks (refStore.curChunk ^^^ 1)).unflushedId refOpsDown = some 1 ∧
      ∃ cs1, refStore.WriteChunks refOpsDown refMCFetching refMetric
        = Outcome.err "UpdateItem: connection refused" (cs1, refMCFetching)) := by
  refine ⟨⟨by rfl, by decide, by decide, by decide, _, rfl, by decide, by decide⟩,
    ⟨by decide, by decide, by decide, _, rfl⟩⟩

/-- C16 fails on the code when the current buffer has the partition id -1,
the value by which the loop of `WriteChunks` knows that no table is chosen
yet (line 257).  `refStoreRestored`, reached by restoring a store whose item
exists and appending one sample to each of the partitions -2 and -1, has
`lastTid = -2`.  One `WriteChunks` call flushes the buffer of partition -2 in
the same round as the buffer of partition -1, against the comment of line
275: the expression begins with the initialization clauses although -2 is not
greater than `lastTid`, and `lastTid` is -1 afterwards, which is not
`max (-2) (-2)`.  And when only the current buffer of partition -1 holds a
sample, with `lastTid = -2`, the call marks the buffer as flushed and raises
`lastTid` to -1, but takes the table for none at line 300 and issues no
request: the initialization clauses that `-1 > lastTid` asks for are not sent,
now or later. -/
theorem WriteChunks_initialization_fails :
    (run refOps refMetric (NewChunkStore, refMC)
        [Op.getChunksState (-7199995), Op.processGetResp respFound,
         Op.append (-7199995) (Value.float64 11), Op.append (-3599995) (Value.float64 12)]
      = some (refStoreRestored, refMCFetching) ∧
    refStoreRestored.state ≠ storeStateGet ∧
    (refStoreRestored.chunks refStoreRestored.curChunk).unflushedId refOps = some (-1) ∧
    (refStoreRestored.chunks (refStoreRestored.curChunk ^^^ 1)).unflushedId refOps = some (-2) ∧
    ¬ ((-2 : Int) > refStoreRestored.lastTid) ∧
    ∃ b, refStoreRestored.WriteChunks refOps refMCFetching refMetric = Outcome.ok b ∧
      b.2.issued = refMCFetching.issued ++
        [Request.updateItem
          { Path := "/tsdb/cpu.77"
            Expression :=
              "_name='cpu'; host='a'; _lset='cpu.key'; _meta=init_array(24,'int'); " ++
              "_v23=init_array(1024,'int'); _meta[23]=1; _v23[0]=-3599995; _v23[1]=12; " ++
              "_maxtime=0" ++
              "_v22=init_array(1024,'int'); _meta[22]=1; _v22[0]=-7199995; _v22[1]=11; " ++
              "_maxtime=0" }] ∧
      initClauses refMetric =
        "_name='cpu'; host='a'; _lset='cpu.key'; _meta=init_array(24,'int'); " ∧
      (b.1.chunks (refStoreRestored.curChunk ^^^ 1)).writing = true ∧
      (b.1.chunks (refStoreRestored.curChunk ^^^ 1)).updCount = 1 ∧
      b.1.lastTid = -1 ∧
      b.1.lastTid ≠ max refStoreRestored.lastTid (-2)) ∧
    (∃ s b, run refOps refMetric (NewChunkStore, refMC)
        [Op.getChunksState (-7199995), Op.processGetResp respFound,
         Op.append (-3599995) (Value.float64 12)] = some s ∧
      s.1.state ≠ storeStateGet ∧ s.1.lastTid = -2 ∧
      (s.1.chunks s.1.curChunk).unflushedId refOps = some (-1) ∧
      (s.1.chunks (s.1.curChunk ^^^ 1)).unflushedId refOps = none ∧
      s.1.WriteChunks refOps s.2 refMetric = Outcome.ok b ∧
      b.2.issued = s.2.issued ∧
      (b.1.chunks s.1.curChunk).writing = true ∧
      (b.1.chunks s.1.curChunk).updCount = 1 ∧
      b.1.lastTid = -1) := by
  refine ⟨⟨by decide, by decide, by decide, by decide, by decide, _, rfl, by rfl, by rfl,
    by decide, by decide, by decide, by decide⟩,
    ⟨_, _, rfl, by decide, by decide, by decide, by decide, rfl, by decide, by decide,
      by decide, by decide⟩⟩

/-- C17 (UpdatesBehind), amended: for every store, `UpdatesBehind` is the
length of `pending` plus, over the buffers that have an encoder, the encoder's
sample count minus `updCount`.  In every state reached from `NewChunkStore` by calls
of the public operations, for encoders that start with 0 samples, gain exactly
one sample per append and keep their samples when the offset is moved, each
buffer with an encoder has `updCount` at most the encoder's sample count, so
`UpdatesBehind` is not negative and is at least the length of `pending`. -/
theorem UpdatesBehind_reachable (ops : Collaborators Part Enc) (metric : MetricState)
    (mc : MetricsCache) (l : List Op) (s : chunkStore Part Enc × MetricsCache)
    (hnew : ∀ e, ops.NewAppender = Except.ok e → ops.NumSamples e = 0)
    (happ : ∀ e t x, ops.NumSamples (ops.Append e t x) = ops.NumSamples e + 1)
    (hmove : ∀ e m, ops.NumSamples (ops.MoveOffset e m) = ops.NumSamples e)
    (h : run ops metric (NewChunkStore, mc) l = some s) :
    (∀ cs : chunkStore Part Enc,
      cs.UpdatesBehind ops = (cs.pending.length : Int) +
        (([0, 1] : List (Fin 2)).map fun k =>
          match (cs.chunks k).appender with
          | none => 0
          | some e => ops.NumSamples e - (cs.chunks k).updCount).sum) ∧
    (∀ k e, (s.1.chunks k).appender = some e → (s.1.chunks k).updCount ≤ ops.NumSamples e) ∧
    0 ≤ s.1.UpdatesBehind ops ∧
    (s.1.pending.length : Int) ≤ s.1.UpdatesBehind ops := by
  have hinv := run_counts ops metric hnew happ hmove l (NewChunkStore, mc) s h
    (by
      intro k e he
      have : (NewChunkStore : chunkStore Part Enc).chunks k = attrAppender.zero := by
        by_cases hk : k = 0 <;> simp [chunkStore.chunks, NewChunkStore, hk]
      rw [show ((NewChunkStore, mc) : chunkStore Part Enc × MetricsCache).1 = NewChunkStore
        from rfl, this] at he
      simp [attrAppender.zero] at he)
  have h0 := behind_nonneg ops s.1.chunks0 (hinv 0)
  have h1 := behind_nonneg ops s.1.chunks1 (hinv 1)
  refine ⟨?_, hinv, ?_, ?_⟩
  · intro cs
    simp only [chunkStore.UpdatesBehind, attrAppender.behind, List.map, List.sum_cons,
      List.sum_nil, add_zero]
    have e0 : cs.chunks 0 = cs.chunks0 := rfl
    have e1 : cs.chunks 1 = cs.chunks1 := rfl
    rw [e0, e1, add_assoc]
  · have hp : (0 : Int) ≤ (s.1.pending.length : Int) := Int.natCast_nonneg _
    unfold chunkStore.UpdatesBehind; omega
  · unfold chunkStore.UpdatesBehind; omega

theorem UpdatesBehind_reachable_witness :
    (∀ e, refOps.NewAppender = Except.ok e → refOps.NumSamples e = 0) ∧
    (∀ e t x, refOps.NumSamples (refOps.Append e t x) = refOps.NumSamples e + 1) ∧
    (∀ e m, refOps.NumSamples (refOps.MoveOffset e m) = refOps.NumSamples e) ∧
    ∃ s, run refOps refMetric (NewChunkStore, refMC)
        [Op.getChunksState 3600005, Op.processGetResp respNotFound,
         Op.append 3600005 (Value.float64 11), Op.writeChunks,
         Op.append 7200000 (Value.float64 12), Op.append 3600006 (Value.float64 13)] = some s ∧
      s.1 = refStoreInFlight ∧
      refStoreInFlight.UpdatesBehind refOps = 2 ∧
      (0 : Int) ≤ s.1.UpdatesBehind refOps ∧
      (s.1.pending.length : Int) ≤ s.1.UpdatesBehind refOps :=
  have hnew : ∀ e, refOps.NewAppender = Except.ok e → refOps.NumSamples e = 0 := by
    intro e h
    have : e = { samples := [], offset := 0 } := by
      simp only [refOps, Except.ok.injEq] at h; exact h.symm
    subst this; rfl
  have happ : ∀ e t x, refOps.NumSamples (refOps.Append e t x) = refOps.NumSamples e + 1 := by
    intro e t x; simp [refOps]
  have hmove : ∀ e m, refOps.NumSamples (refOps.MoveOffset e m) = refOps.NumSamples e :=
    fun _ _ => rfl
  have hrun : run refOps refMetric (NewChunkStore, refMC)
      [Op.getChunksState 3600005, Op.processGetResp respNotFound,
       Op.append 3600005 (Value.float64 11), Op.writeChunks,
       Op.append 7200000 (Value.float64 12), Op.append 3600006 (Value.float64 13)]
      = some (refStoreInFlight,
          { refMCFetching with
            requestsMap := (2, refMetric) :: refMCFetching.requestsMap
            issued := refMCFetching.issued ++
              [Request.updateItem
                { Path := "/tsdb/cpu.77"
                  Expression :=
                    "_name='cpu'; host='a'; _lset='cpu.key'; _meta=init_array(24,'int'); " ++
                    "_v1=init_array(1024,'int'); _meta[1]=1; _v1[0]=3600005; _v1[1]=11; " ++
                    "_maxtime=3600005" }] }) := by rfl
  ⟨hnew, happ, hmove, _, hrun, rfl, by decide,
    (UpdatesBehind_reachable refOps refMetric refMC _ _ hnew happ hmove hrun).2.2⟩

/-- C17 as stated fails with the two assumptions it names: the appender of
`refOpsForget` starts with 0 samples and gains exactly one per append, but
loses its samples when `ProcessWriteResp` moves its offset.  After one sample
is appended, flushed and the response processed, the buffer has
`updCount = 1` and an appender of 0 samples, and `UpdatesBehind` is -1. -/
theorem UpdatesBehind_reachable_counterexample :
    (∀ e, refOpsForget.NewAppender = Except.ok e → refOpsForget.NumSamples e = 0) ∧
    (∀ e t x, refOpsForget.NumSamples (refOpsForget.Append e t x)
      = refOpsForget.NumSamples e + 1) ∧
    ∃ s, run refOpsForget refMetric (NewChunkStore, refMC)
        [Op.getChunksState 3600005, Op.processGetResp respNotFound,
         Op.append 3600005 (Value.float64 11), Op.writeChunks, Op.processWriteResp] = some s ∧
      s.1.pending = [] ∧
      s.1.chunks0.updCount = 1 ∧
      s.1.chunks0.appender = some { samples := [], offset := 8 } ∧
      s.1.UpdatesBehind refOpsForget = -1 := by
  refine ⟨?_, ?_, _, rfl, by decide, by decide, by decide, by decide⟩
  · intro e h
    have : e = { samples := [], offset := 0 } := by
      simp only [refOpsForget, refOps, Except.ok.injEq] at h; exact h.symm
    subst this; rfl
  · intro e t x; simp [refOpsForget, refOps]

/-- C13 (single flush in flight), amended: in every store state reached from
`NewChunkStore` by a sequence of calls of the public operations in which each
`WriteChunks` call is made when no buffer has `writing = true` and the two
buffers are not both flushed by that call (they both hold unflushed samples
and the partition id of the current one is that of the previous one or is
-1), at most one of the two buffers has `writing = true`. -/
theorem single_flush_in_flight (ops : Collaborators Part Enc) (metric : MetricState)
    (mc : MetricsCache) (l : List Op) (s : chunkStore Part Enc × MetricsCache)
    (h : run ops metric (NewChunkStore, mc) l = some s)
    (hd : disciplined ops metric (NewChunkStore, mc) l = true) :
    ¬((s.1.chunks 0).writing = true ∧ (s.1.chunks 1).writing = true) :=
  run_one_flight ops metric l (NewChunkStore, mc) s h hd (fun hw => Bool.noConfusion (show false = true from hw.1))

theorem single_flush_in_flight_witness :
    ∃ s, run refOps refMetric (NewChunkStore, refMC)
        [Op.getChunksState 3600005, Op.processGetResp respNotFound,
         Op.append 3600005 (Value.float64 11), Op.writeChunks,
         Op.append 7200000 (Value.float64 12), Op.append 3600006 (Value.float64 13)] = some s ∧
      disciplined refOps refMetric (NewChunkStore, refMC)
        [Op.getChunksState 3600005, Op.processGetResp respNotFound,
         Op.append 3600005 (Value.float64 11), Op.writeChunks,
         Op.append 7200000 (Value.float64 12), Op.append 3600006 (Value.float64 13)] = true ∧
      s.1 = refStoreInFlight ∧
      (refStoreInFlight.chunks 0).writing = true ∧
      ¬((s.1.chunks 0).writing = true ∧ (s.1.chunks 1).writing = true) :=
  have hrun : run refOps refMetric (NewChunkStore, refMC)
      [Op.getChunksState 3600005, Op.processGetResp respNotFound,
       Op.append 3600005 (Value.float64 11), Op.writeChunks,
       Op.append 7200000 (Value.float64 12), Op.append 3600006 (Value.float64 13)]
      = some (refStoreInFlight,
          { refMCFetching with
            requestsMap := (2, refMetric) :: refMCFetching.requestsMap
            issued := refMCFetching.issued ++
              [Request.updateItem
                { Path := "/tsdb/cpu.77"
                  Expression :=
                    "_name='cpu'; host='a'; _lset='cpu.key'; _meta=init_array(24,'int'); " ++
                    "_v1=init_array(1024,'int'); _meta[1]=1; _v1[0]=3600005; _v1[1]=11; " ++
                    "_maxtime=3600005" }] }) := by rfl
  have hd : disciplined refOps refMetric (NewChunkStore, refMC)
      [Op.getChunksState 3600005, Op.processGetResp respNotFound,
       Op.append 3600005 (Value.float64 11), Op.writeChunks,
       Op.append 7200000 (Value.float64 12), Op.append 3600006 (Value.float64 13)] = true := by
    rfl
  ⟨_, hrun, hd, rfl, by decide,
    single_flush_in_flight refOps refMetric refMC _ _ hrun hd⟩

/-- C13 as stated fails on two runs from `NewChunkStore`.  A second
`WriteChunks` call made after a rotation and before the response to the first
flushes the new current buffer while the previous one still has `writing =
true`: both flags are set.  And with one partition per day, one `WriteChunks`
call on `refStoreDay`, whose two buffers are chunks of the same partition and
both hold unflushed samples, flushes both in one request and sets both
flags. -/
theorem single_flush_in_flight_counterexample :
    (∃ s, run refOps refMetric (NewChunkStore, refMC)
        [Op.getChunksState 3600005, Op.processGetResp respNotFound,
         Op.append 3600005 (Value.float64 11), Op.writeChunks,
         Op.append 7200000 (Value.float64 12), Op.writeChunks] = some s ∧
      (s.1.chunks 0).writing = true ∧ (s.1.chunks 1).writing = true) ∧
    (∃ s, run refOpsDay refMetric (NewChunkStore, refMC)
        [Op.getChunksState 90000000, Op.processGetResp respNotFound,
         Op.append 90000000 (Value.float64 11), Op.append 93600000 (Value.float64 12),
         Op.writeChunks] = some s ∧
      (s.1.chunks 0).writing = true ∧ (s.1.chunks 1).writing = true) :=
  ⟨⟨_, rfl, rfl, rfl⟩, ⟨_, rfl, rfl, rfl⟩⟩

end appender
